import Mathlib

/-!
# Raasta Sathi: report lifecycle and engagement

A shallow embedding of

* `models/Report.js`   : the schema, the engagement methods (`addLike`,
  `removeLike`, `addComment`, `vote`), the virtual counters and the
  `pre('save')` hook;
* `routes/reports.js`  : the upload middleware and the handler of the create
  route, and the listing;
* `src/pages/ReportPage.jsx` : `handleSubmit` and the payload it assembles;
* `src/utils/api.js`   : the response interceptor and the retry loop of
  `createReport`.

Modelling conventions.

* JavaScript values are the inductive type `JSVal`.  A number is `NaN`, an
  infinity, or a finite decimal `m * 10^e` (every IEEE double is such a decimal);
  the code only ever asks of a number whether it is `NaN` and whether it is
  `=== 0`, and `-0 === 0` holds, so no signed zero is kept.
* `JSON.parse` and `JSON.stringify` are built-ins, not code of the repository:
  the route and the form take them as parameters. So are `validateReport`
  (middleware/validation.js) and the calls on the `User` model.
* `Report.create` is Mongoose's: the document it builds is read off the schema
  (defaults, required paths, enums, casts of the engagement arrays and of the
  nested path `coordinates`). The
  query of the listing and `multer` are library calls too; they are modelled
  by what their options say (filter, sort, limit; field name, file filter,
  limits).
* A method that ends in `return this.save()` is a function
  `Report → Except JSError Report`: `ok r'` is the saved document, `error e` a
  thrown exception or a rejected save, in which case the stored report is the
  one before the call.
* The wall-clock stamps `likedAt`, `votedAt`, `viewedAt` and `updatedAt` and
  the surrogate `_id` of sub-documents are not part of the modelled state; the
  creation time `createdAt`, which orders the listing, is.
-/

namespace RaastaSathi

/-! ## JavaScript values -/

/-- A JavaScript number: `NaN`, `±Infinity`, or the finite value
`mantissa * 10 ^ exponent`. -/
inductive JSNum where
  | nan
  | inf (negative : Bool)
  | fin (mantissa : Int) (exponent : Int)
  deriving Repr, DecidableEq

namespace JSNum

/-- Number.isNaN. -/
def isNaN : JSNum → Bool
  | nan => true
  | _ => false

/-- The test `x === 0` on a number (true for `0` and `-0`). -/
def isZero : JSNum → Bool
  | fin m _ => m == 0
  | _ => false

/-- Number.isFinite. -/
def isFinite : JSNum → Bool
  | fin _ _ => true
  | _ => false

end JSNum

/-- A JavaScript value as it occurs in a request body or a parsed JSON text. -/
inductive JSVal where
  | undefined
  | null
  | bool (b : Bool)
  | num (n : JSNum)
  | str (s : String)
  | arr (items : List JSVal)
  | obj (fields : List (String × JSVal))
  deriving Repr

/-- A plain JavaScript object: its own properties in insertion order. -/
abbrev JSObj := List (String × JSVal)

/-- The exceptions the modelled code can raise. -/
inductive JSError where
  | typeError
  | syntaxError
  | validationError (path : String)
  | castError (path : String)
  deriving Repr, DecidableEq

namespace JSObj

/-- Property read `o[key]`; `undefined` when the object has no such property. -/
def get (o : JSObj) (key : String) : JSVal :=
  match o.lookup key with
  | some v => v
  | none => JSVal.undefined

/-- The test `key in o` for an own property. -/
def has (o : JSObj) (key : String) : Bool :=
  o.any (fun p => p.1 == key)

/-- The statement `delete o[key]`. -/
def delete (o : JSObj) (key : String) : JSObj :=
  o.filter (fun p => !(p.1 == key))

/-- The assignment `o[key] = v`: an existing property keeps its place, a new one
is added last. -/
def set (o : JSObj) (key : String) (v : JSVal) : JSObj :=
  if o.has key then o.map (fun p => if p.1 == key then (key, v) else p)
  else o ++ [(key, v)]

end JSObj

namespace JSVal

/-- The number zero. -/
def zero : JSVal := num (JSNum.fin 0 0)

/-- The operator `typeof`. -/
def typeOf : JSVal → String
  | undefined => "undefined"
  | null => "object"
  | bool _ => "boolean"
  | num _ => "number"
  | str _ => "string"
  | arr _ => "object"
  | obj _ => "object"

/-- Truthiness (ToBoolean): `undefined`, `null`, `false`, `0`, `NaN` and the
empty string are falsy. -/
def truthy : JSVal → Bool
  | undefined => false
  | null => false
  | bool b => b
  | num n => !(n.isNaN || n.isZero)
  | str s => !(s == "")
  | arr _ => true
  | obj _ => true

/-- Array.isArray. -/
def isArray : JSVal → Bool
  | arr _ => true
  | _ => false

/-- The `length` of an array (the code reads it only after `Array.isArray`). -/
def length : JSVal → Nat
  | arr items => items.length
  | _ => 0

/-- Indexing `a[i]`: `undefined` outside the array. -/
def index : JSVal → Nat → JSVal
  | arr items, i => items.getD i undefined
  | _, _ => undefined

/-- The global `isNaN`, which the code reaches only once `typeof` has answered
`'number'` for its argument. -/
def isNaN : JSVal → Bool
  | num n => n.isNaN
  | _ => false

/-- The comparison `v === 0`. -/
def isZero : JSVal → Bool
  | num n => n.isZero
  | _ => false

/-- The comparison `v === null`. -/
def isNull : JSVal → Bool
  | null => true
  | _ => false

/-- Property read `v.key` for a key that is not a built-in property: a
`TypeError` on `undefined` and `null`, the own property of an object,
`undefined` on every other value. -/
def member (v : JSVal) (key : String) : Except JSError JSVal :=
  match v with
  | undefined => .error JSError.typeError
  | null => .error JSError.typeError
  | obj fields => .ok (JSObj.get fields key)
  | _ => .ok undefined

/-- Property read `v.key` behind a truthiness guard on `v` (no exception can
arise there). -/
def memberD (v : JSVal) (key : String) : JSVal :=
  match v with
  | obj fields => JSObj.get fields key
  | _ => undefined

/-- The statement `delete v.key`: removes the own property of an object, does
nothing on other values. -/
def deleteMember (v : JSVal) (key : String) : JSVal :=
  match v with
  | obj fields => obj (JSObj.delete fields key)
  | other => other

end JSVal

/-- The `length` of a JavaScript string, counted in UTF-16 code units. -/
def jsLength (s : String) : Nat :=
  (s.toList.map (fun c => if c.val < 0x10000 then 1 else 2)).sum

/-! ## The Report document (`models/Report.js`, lines 3-93) -/

/-- A Mongoose `ObjectId`; `toString()` is its hexadecimal text. -/
structure ObjectId where
  hex : String
  deriving Repr, DecidableEq

/-- The method `ObjectId.prototype.toString`. -/
def ObjectId.toString (i : ObjectId) : String := i.hex

/-- An entry of `likes`, `votes.up`, `votes.down` or `viewedBy`: the schema
does not require `user`, so the reference may be missing. -/
structure UserEntry where
  user : Option ObjectId
  deriving Repr, DecidableEq

/-- An entry of `comments`. -/
structure Comment where
  user : Option ObjectId
  text : String
  deriving Repr, DecidableEq

/-- The sub-document `votes`. -/
structure Votes where
  up : List UserEntry
  down : List UserEntry
  deriving Repr, DecidableEq

/-- The Report document. `location` and `coordinates` are kept as JavaScript
values: a created document holds at `coordinates` the object of the nested
path, `{type, coordinates}`. -/
structure Report where
  type : String
  description : String
  location : JSVal
  coordinates : JSVal
  severity : String
  status : String
  reportedBy : JSVal
  likes : List UserEntry
  comments : List Comment
  votes : Votes
  views : JSVal
  viewedBy : List UserEntry
  isActive : Bool
  createdAt : Nat
  deriving Repr

namespace Report

/-- Virtual `likeCount` (lines 102-104). -/
def likeCount (r : Report) : Nat := r.likes.length

/-- Virtual `commentCount` (lines 105-107). -/
def commentCount (r : Report) : Nat := r.comments.length

/-- Virtual `voteScore` (lines 108-110). -/
def voteScore (r : Report) : Int := (r.votes.up.length : Int) - (r.votes.down.length : Int)

end Report

/-! ## The `pre('save')` hook (`models/Report.js`, lines 133-152) -/

/-- The rejection test of the hook, lines 139-142, on `coords`. -/
def hookCoordsInvalid (coords : JSVal) : Bool :=
  !coords.isArray || coords.length != 2 ||
  (coords.index 0).typeOf != "number" || (coords.index 1).typeOf != "number" ||
  (coords.index 0).isNaN || (coords.index 1).isNaN ||
  (coords.index 0).isZero || (coords.index 1).isZero

/-- The hook: when `this.location.coordinates` is truthy and its `coordinates`
member fails the test, `this.location.coordinates` is deleted. The top-level
`coordinates` path of the schema is not read. -/
def preSave (r : Report) : Report :=
  if r.location.truthy && (r.location.memberD "coordinates").truthy then
    let coords := (r.location.memberD "coordinates").memberD "coordinates"
    if hookCoordsInvalid coords then
      { r with location := r.location.deleteMember "coordinates" }
    else r
  else r

/-- The method `save()` on a document whose modified paths satisfy the schema:
the hook runs and the document is stored. -/
def save (r : Report) : Except JSError Report := .ok (preSave r)

/-! ## Engagement methods (`models/Report.js`, lines 112-131) -/

/-- The callback `e => e.user.toString() === userId.toString()`: a `TypeError`
when the entry has no `user`. -/
def sameUser (userId : ObjectId) (e : UserEntry) : Except JSError Bool :=
  match e.user with
  | none => .error JSError.typeError
  | some u => .ok (u.toString == userId.toString)

/-- Array.prototype.some with a callback that may throw: entries are visited in
order and the visit stops at the first `true`. -/
def someM {α : Type} (f : α → Except JSError Bool) : List α → Except JSError Bool
  | [] => .ok false
  | x :: xs =>
    match f x with
    | .error e => .error e
    | .ok true => .ok true
    | .ok false => someM f xs

/-- Array.prototype.filter with a callback that may throw: every entry is
visited in order. -/
def filterM {α : Type} (f : α → Except JSError Bool) : List α → Except JSError (List α)
  | [] => .ok []
  | x :: xs =>
    match f x with
    | .error e => .error e
    | .ok keep =>
      match filterM f xs with
      | .error e => .error e
      | .ok rest => .ok (if keep then x :: rest else rest)

/-- The callback `e => e.user.toString() !== userId.toString()`. -/
def otherUser (userId : ObjectId) (e : UserEntry) : Except JSError Bool :=
  match sameUser userId e with
  | .error e => .error e
  | .ok b => .ok (!b)

namespace Report

/-- Method `addLike` (lines 112-116). -/
def addLike (r : Report) (userId : ObjectId) : Except JSError Report :=
  match someM (sameUser userId) r.likes with
  | .error e => .error e
  | .ok alreadyLiked =>
    let r1 := if !alreadyLiked then { r with likes := r.likes ++ [{ user := some userId }] } else r
    save r1

/-- Method `removeLike` (lines 117-120). -/
def removeLike (r : Report) (userId : ObjectId) : Except JSError Report :=
  match filterM (otherUser userId) r.likes with
  | .error e => .error e
  | .ok kept => save { r with likes := kept }

/-- The schema rules of a comment (lines 71-72): `text` is required and at most
200 long. -/
def commentValid (text : String) : Bool :=
  !(text == "") && jsLength text ≤ 200

/-- Method `addComment` (lines 121-124); `save()` rejects a comment that breaks
the schema rules. -/
def addComment (r : Report) (userId : ObjectId) (text : String) : Except JSError Report :=
  let r1 := { r with comments := r.comments ++ [{ user := some userId, text := text }] }
  if commentValid text then save r1 else .error (JSError.validationError "comments.text")

/-- Method `vote` (lines 125-131); `voteType` is any JavaScript value. -/
def vote (r : Report) (userId : ObjectId) (voteType : JSVal) : Except JSError Report :=
  match filterM (otherUser userId) r.votes.up with
  | .error e => .error e
  | .ok up =>
    match filterM (otherUser userId) r.votes.down with
    | .error e => .error e
    | .ok down =>
      let votes : Votes :=
        match voteType with
        | JSVal.str "up" => { up := up ++ [{ user := some userId }], down := down }
        | JSVal.str "down" => { up := up, down := down ++ [{ user := some userId }] }
        | _ => { up := up, down := down }
      save { r with votes := votes }

end Report

/-- A call of one engagement method. -/
inductive EngagementOp where
  | addLike (userId : ObjectId)
  | removeLike (userId : ObjectId)
  | addComment (userId : ObjectId) (text : String)
  | vote (userId : ObjectId) (voteType : JSVal)

/-- Run one engagement call on a report. -/
def EngagementOp.run (op : EngagementOp) (r : Report) : Except JSError Report :=
  match op with
  | .addLike u => r.addLike u
  | .removeLike u => r.removeLike u
  | .addComment u text => r.addComment u text
  | .vote u voteType => r.vote u voteType

/-- The stored report after a call: the saved document, or the report as it was
when the call failed. -/
def stored (r : Report) (result : Except JSError Report) : Report :=
  match result with
  | .ok r1 => r1
  | .error _ => r

/-- The stored report after a sequence of calls, each made on the report the
previous one left. -/
def runAll (ops : List EngagementOp) (r : Report) : Report :=
  ops.foldl (fun cur op => stored cur (op.run cur)) r

/-! ## Predicates on the engagement state -/

/-- Every entry of the list carries a user reference. -/
def allHaveUser (entries : List UserEntry) : Prop :=
  ∀ e ∈ entries, e.user.isSome = true

instance (entries : List UserEntry) : Decidable (allHaveUser entries) :=
  inferInstanceAs (Decidable (∀ e ∈ entries, e.user.isSome = true))

namespace Report

/-- The users referenced by `likes`, in order. -/
def likers (r : Report) : List ObjectId := r.likes.filterMap UserEntry.user

/-- The user has an entry in `likes`. -/
def likedBy (r : Report) (userId : ObjectId) : Prop :=
  ({ user := some userId } : UserEntry) ∈ r.likes

instance (r : Report) (userId : ObjectId) : Decidable (r.likedBy userId) :=
  inferInstanceAs (Decidable (({ user := some userId } : UserEntry) ∈ r.likes))

/-- The property that `likes` holds at most one entry per user: the user
references in it are pairwise distinct. -/
def likesUnique (r : Report) : Prop := r.likers.Nodup

instance (r : Report) : Decidable r.likesUnique :=
  inferInstanceAs (Decidable r.likers.Nodup)

end Report

/-! ## `Report.create` (Mongoose document construction from a request body)

The schema (lines 3-93) decides what a body becomes: the engagement arrays and
scalar flags are cast and defaulted, the content fields are required to hold a
value of their declared type, and the nested path `coordinates` gets its two
sub-paths, each with its default. The `location` is stored as it is handed
over (its casting is not modelled). -/

/-- The builtins and collaborators the server code calls but the repository
does not define. -/
structure ServerEnv where
  /-- The builtin `JSON.parse`: the parsed value, or the `SyntaxError` it throws. -/
  jsonParse : String → Except JSError JSVal
  /-- The outcome of running `validateReport` (middleware/validation.js) on the
  body: `true` when `validationResult` is empty. -/
  validateReport : JSObj → Bool
  /-- The conversion `Number(s)` of a string. -/
  toNumber : String → JSNum
  /-- The reading of `Date.now()` when the document is created. -/
  now : Nat
  /-- The calls `populate`, `updatePoints` and `updateStreak` after creation. -/
  rewardUser : Report → Except JSError Unit

/-- A string of 24 hexadecimal digits. -/
def isObjectIdHex (s : String) : Bool :=
  s.length == 24 &&
    s.toList.all (fun c => c.isDigit || ('a' ≤ c && c ≤ 'f') || ('A' ≤ c && c ≤ 'F'))

/-- Cast of an optional `ObjectId` path. -/
def castUser (path : String) : JSVal → Except JSError (Option ObjectId)
  | JSVal.undefined => .ok none
  | JSVal.null => .ok none
  | JSVal.str s =>
    if isObjectIdHex s then .ok (some { hex := String.mk (s.toList.map Char.toLower) })
    else .error (JSError.castError path)
  | _ => .error (JSError.castError path)

/-- Cast of one entry `{ user }` of `likes`, `votes.up`, `votes.down`, `viewedBy`. -/
def castEntry (path : String) : JSVal → Except JSError UserEntry
  | JSVal.obj fields =>
    match castUser path (JSObj.get fields "user") with
    | .ok u => .ok { user := u }
    | .error e => .error e
  | _ => .error (JSError.castError path)

/-- Cast of one entry `{ user, text }` of `comments`: both are required and the
text is at most 200 long. -/
def castComment : JSVal → Except JSError Comment
  | JSVal.obj fields =>
    match castUser "comments.user" (JSObj.get fields "user"), JSObj.get fields "text" with
    | .ok (some u), JSVal.str text =>
      if Report.commentValid text then .ok { user := some u, text := text }
      else .error (JSError.validationError "comments.text")
    | .ok _, _ => .error (JSError.validationError "comments")
    | .error e, _ => .error e
  | _ => .error (JSError.castError "comments")

/-- Cast of a document array: a missing value is the empty array, a value that
is not an array is wrapped into one. -/
def castArray {α : Type} (cast : JSVal → Except JSError α) : JSVal → Except JSError (List α)
  | JSVal.undefined => .ok []
  | JSVal.null => .ok []
  | JSVal.arr items => items.mapM cast
  | v => [v].mapM cast

/-- Cast of a value to `Number`: `undefined` and `null` stay as they are, the
empty string becomes `null`, another string and a boolean are converted by
`Number(...)`, and `NaN` and every other value are a cast error. -/
def castNumber (env : ServerEnv) (path : String) : JSVal → Except JSError JSVal
  | JSVal.undefined => .ok JSVal.undefined
  | JSVal.null => .ok JSVal.null
  | JSVal.num n => if n.isNaN then .error (JSError.castError path) else .ok (JSVal.num n)
  | JSVal.bool b => .ok (JSVal.num (JSNum.fin (if b then 1 else 0) 0))
  | JSVal.str s =>
    if s == "" then .ok JSVal.null
    else if (env.toNumber s).isNaN then .error (JSError.castError path)
    else .ok (JSVal.num (env.toNumber s))
  | _ => .error (JSError.castError path)

/-- Cast of `views` (`Number`, default 0). -/
def castViews (env : ServerEnv) : JSVal → Except JSError JSVal
  | JSVal.undefined => .ok JSVal.zero
  | v => castNumber env "views" v

/-- Cast of `isActive` (`Boolean`, default `true`); a stored `null` is not
`true`. -/
def castActive : JSVal → Except JSError Bool
  | JSVal.undefined => .ok true
  | JSVal.null => .ok false
  | JSVal.bool b => .ok b
  | JSVal.str s =>
    if s == "true" || s == "1" || s == "yes" then .ok true
    else if s == "false" || s == "0" || s == "no" then .ok false
    else .error (JSError.castError "isActive")
  | _ => .error (JSError.castError "isActive")

/-- A string path with an `enum` and a default. -/
def castEnum (path : String) (allowed : List String) (dflt : String) :
    JSVal → Except JSError String
  | JSVal.undefined => .ok dflt
  | JSVal.str s => if allowed.contains s then .ok s else .error (JSError.validationError path)
  | _ => .error (JSError.castError path)

/-- The `enum` of `type` (line 7). -/
def reportTypes : List String :=
  ["accident", "police", "pothole", "construction", "congestion", "closure", "weather", "vip"]

/-- The required `type` (lines 4-8). -/
def castType : JSVal → Except JSError String
  | JSVal.str s =>
    if reportTypes.contains s then .ok s else .error (JSError.validationError "type")
  | _ => .error (JSError.validationError "type")

/-- The method `String.prototype.trim`: white space (here the ASCII blanks) is
removed at both ends. -/
def jsTrim (s : String) : String :=
  String.mk ((s.toList.dropWhile Char.isWhitespace).reverse.dropWhile Char.isWhitespace).reverse

/-- The required, trimmed `description` of at most 500 (lines 9-14). -/
def castDescription : JSVal → Except JSError String
  | JSVal.str s =>
    if !(jsTrim s == "") && jsLength (jsTrim s) ≤ 500 then .ok (jsTrim s)
    else .error (JSError.validationError "description")
  | _ => .error (JSError.validationError "description")

/-- The nested path `coordinates` (lines 27-37). Its sub-path `type` is a string
of the enum `['Point']` with the default `'Point'` (line 31); its sub-path
`coordinates` is an array of numbers (`[Number]`, line 34), which is empty by
default. A body without the field therefore yields
`{type: 'Point', coordinates: []}`. A plain object is set sub-path by sub-path;
`null` is stored as `null`; any other value (a string, a number, an array) is
not an object for the nested path and is left out, so the defaults stand. -/
def castCoordinates (env : ServerEnv) : JSVal → Except JSError JSVal
  | JSVal.obj fields =>
    match castEnum "coordinates.type" ["Point"] "Point" (JSObj.get fields "type"),
      castArray (castNumber env "coordinates.coordinates") (JSObj.get fields "coordinates") with
    | .ok type, .ok coords =>
      .ok (JSVal.obj [("type", JSVal.str type), ("coordinates", JSVal.arr coords)])
    | .error e, _ => .error e
    | .ok _, .error e => .error e
  | JSVal.null => .ok JSVal.null
  | _ => .ok (JSVal.obj [("type", JSVal.str "Point"), ("coordinates", JSVal.arr [])])

/-- The required paths `location.address` (line 18) and `reportedBy` (line 51). -/
def requiredPresent (body : JSObj) : Bool :=
  (match (body.get "location").memberD "address" with
    | JSVal.str a => !(a == "")
    | _ => false) &&
  (match body.get "reportedBy" with
    | JSVal.str u => isObjectIdHex u
    | _ => false)

/-- Static `Report.create(body)`: the document is built from the body, validated
and saved. -/
def Report.create (env : ServerEnv) (body : JSObj) : Except JSError Report := do
  let type ← castType (body.get "type")
  let description ← castDescription (body.get "description")
  let coordinates ← castCoordinates env (body.get "coordinates")
  let severity ← castEnum "severity" ["low", "medium", "high"] "medium" (body.get "severity")
  let status ← castEnum "status" ["pending", "verified", "resolved", "rejected"] "pending"
    (body.get "status")
  let likes ← castArray (castEntry "likes") (body.get "likes")
  let comments ← castArray castComment (body.get "comments")
  let up ← castArray (castEntry "votes.up") ((body.get "votes").memberD "up")
  let down ← castArray (castEntry "votes.down") ((body.get "votes").memberD "down")
  let views ← castViews env (body.get "views")
  let viewedBy ← castArray (castEntry "viewedBy") (body.get "viewedBy")
  let isActive ← castActive (body.get "isActive")
  if requiredPresent body then
    save {
      type := type, description := description,
      location := body.get "location", coordinates := coordinates,
      severity := severity, status := status, reportedBy := body.get "reportedBy",
      likes := likes, comments := comments, votes := { up := up, down := down },
      views := views, viewedBy := viewedBy, isActive := isActive, createdAt := env.now }
  else .error (JSError.validationError "required")

/-! ## The create route (`routes/reports.js`, lines 53-185) -/

/-- What the handler answers: a JSON response with a status, or `next(error)`. -/
inductive Response where
  | json (status : Nat) (message : String)
  | next (e : JSError)
  deriving Repr, DecidableEq

/-- The rejection test of the route, lines 81-84, on `coords`. -/
def routeCoordsInvalid (coords : JSVal) : Bool :=
  !coords.isArray || coords.length != 2 ||
  (coords.index 0).typeOf != "number" || (coords.index 1).typeOf != "number" ||
  (coords.index 0).isNaN || (coords.index 1).isNaN ||
  (coords.index 0).isZero || (coords.index 1).isZero

/-- Lines 59-71: a truthy string `location` is parsed; a parse error answers 400. -/
def parseLocation (env : ServerEnv) (body : JSObj) : Except Response JSObj :=
  if (body.get "location").truthy && (body.get "location").typeOf == "string" then
    match body.get "location" with
    | JSVal.str s =>
      match env.jsonParse s with
      | .ok parsed => .ok (body.set "location" parsed)
      | .error _ => .error (Response.json 400 "Invalid JSON format for location")
    | _ => .ok body
  else .ok body

/-- Lines 73-94: a truthy string `coordinates` is parsed and checked; the field
is deleted when the check fails and when the `try` block throws (a parse error,
or the `TypeError` of reading `.coordinates` of `null`). -/
def parseCoordinates (env : ServerEnv) (body : JSObj) : JSObj :=
  if (body.get "coordinates").truthy && (body.get "coordinates").typeOf == "string" then
    match body.get "coordinates" with
    | JSVal.str s =>
      match env.jsonParse s with
      | .error _ => body.delete "coordinates"
      | .ok parsed =>
        match parsed.member "coordinates" with
        | .error _ => (body.set "coordinates" parsed).delete "coordinates"
        | .ok coords =>
          if routeCoordsInvalid coords then (body.set "coordinates" parsed).delete "coordinates"
          else body.set "coordinates" parsed
    | _ => body
  else body

/-- Lines 114-117: the fallback title; reading `charAt` of a `type` that is not
a string throws. -/
def fallbackTitle (body : JSObj) : Except JSError JSObj :=
  if !(body.get "title").truthy then
    match body.get "type" with
    | JSVal.str t => .ok (body.set "title" (JSVal.str (t.capitalize ++ " Report")))
    | _ => .error JSError.typeError
  else .ok body

/-- Lines 59-119: the body handed to `Report.create`, unless the handler has
answered before. `userId` is `req.user.id`. -/
def createBody (env : ServerEnv) (userId : String) (body : JSObj) : Except Response JSObj :=
  match parseLocation env body with
  | .error resp => .error resp
  | .ok body1 =>
    let body2 := parseCoordinates env body1
    if env.validateReport body2 then
      match fallbackTitle (body2.set "reportedBy" (JSVal.str userId)) with
      | .ok body3 => .ok body3
      | .error e => .error (Response.next e)
    else .error (Response.json 400 "Validation failed")

/-- The result of the handler: the report it created, if any, and its answer. -/
structure CreateOutcome where
  created : Option Report
  response : Response
  deriving Repr

/-- The handler of `POST /` (lines 53-185). -/
def createHandler (env : ServerEnv) (userId : String) (body : JSObj) : CreateOutcome :=
  match createBody env userId body with
  | .error resp => { created := none, response := resp }
  | .ok body3 =>
    match Report.create env body3 with
    | .error e => { created := none, response := Response.next e }
    | .ok report =>
      match env.rewardUser report with
      | .error e => { created := some report, response := Response.next e }
      | .ok _ => { created := some report, response := Response.json 201 "success" }

/-! ## The form (`src/pages/ReportPage.jsx`, lines 132-170) -/

/-- A file picked in the form. -/
structure Photo where
  mimetype : String
  size : Nat
  deriving Repr, DecidableEq

/-- A value appended to the `FormData`. -/
inductive FormValue where
  | text (s : String)
  | file (p : Photo)
  deriving Repr, DecidableEq

/-- The state of the form that `handleSubmit` reads. -/
structure Draft where
  selectedType : String
  location : String
  lat : JSVal
  lng : JSVal
  description : String
  severity : String
  photo : Option Photo
  userId : String

/-- The condition of lines 147-152 on `coordinates.lat` and `coordinates.lng`. -/
def coordinatesIncluded (lat lng : JSVal) : Bool :=
  !lat.isNull && !lng.isNull &&
  lat.typeOf == "number" && lng.typeOf == "number" &&
  !lat.isNaN && !lng.isNaN &&
  !lat.isZero && !lng.isZero

/-- The object `coordinatesData` of lines 155-158: longitude first. -/
def coordinatesData (lat lng : JSVal) : JSVal :=
  JSVal.obj [("type", JSVal.str "Point"), ("coordinates", JSVal.arr [lng, lat])]

/-- The object `locationData` of lines 139-142. -/
def locationData (d : Draft) : JSVal :=
  JSVal.obj [("address", JSVal.str d.location), ("country", JSVal.str "India")]

/-- The `FormData` assembled in lines 132-170; `stringify` is `JSON.stringify`. -/
def buildFormData (stringify : JSVal → String) (d : Draft) : List (String × FormValue) :=
  [("type", FormValue.text d.selectedType),
   ("description", FormValue.text d.description),
   ("severity", FormValue.text d.severity),
   ("reportedBy", FormValue.text d.userId)] ++
  (if coordinatesIncluded d.lat d.lng then
    [("coordinates", FormValue.text (stringify (coordinatesData d.lat d.lng)))]
   else []) ++
  [("location", FormValue.text (stringify (locationData d)))] ++
  (match d.photo with
   | some p => [("photo", FormValue.file p)]
   | none => [])

/-- The text fields of a multipart request as `multer` puts them into
`req.body`: each one a string. -/
def multerBody (form : List (String × FormValue)) : JSObj :=
  form.filterMap (fun entry =>
    match entry.2 with
    | FormValue.text s => some (entry.1, JSVal.str s)
    | FormValue.file _ => none)

/-! ## The rules in words -/

/-- The acceptance rule as the specification words it: an array of exactly two
finite numbers that are not both zero. -/
def specAccepts (coords : JSVal) : Bool :=
  match coords with
  | JSVal.arr [JSVal.num a, JSVal.num b] =>
    a.isFinite && b.isFinite && !(a.isZero && b.isZero)
  | _ => false

/-- The rule the code applies: an array of exactly two numbers, neither of them
`NaN` and neither of them zero. -/
def codeAccepts (coords : JSVal) : Bool :=
  match coords with
  | JSVal.arr [JSVal.num a, JSVal.num b] =>
    !a.isNaN && !b.isNaN && !a.isZero && !b.isZero
  | _ => false

/-! ## JSON on the wire -/

/-- The number that `JSON.parse(JSON.stringify(n))` yields (ECMAScript,
SerializeJSONProperty): `n` itself when it is finite, `null` for `NaN` and the
infinities. -/
def jsonNumber (n : JSNum) : JSVal :=
  if n.isFinite then JSVal.num n else JSVal.null

/-- The value a conforming `JSON.parse` reads out of the text that
`JSON.stringify` writes for `coordinatesData (num lat) (num lng)`. -/
def wirePoint (lat lng : JSNum) : JSVal :=
  JSVal.obj [("type", JSVal.str "Point"),
    ("coordinates", JSVal.arr [jsonNumber lng, jsonNumber lat])]

/-- The test whether a value is the number `Infinity` or `-Infinity`. -/
def JSVal.isInfinite : JSVal → Bool
  | JSVal.num (JSNum.inf _) => true
  | _ => false

/-- The test whether `w` is the array element that a conforming `JSON.parse`
reads back from the text `JSON.stringify` writes for the element `v`
(ECMAScript, SerializeJSONProperty and SerializeJSONArray): a finite number
comes back as itself, `NaN`, an infinity, `undefined` and `null` come back as
`null`, a boolean and a string as themselves, an array as an array and an
object as an object (the content of these two is not compared). -/
def readsBack : JSVal → JSVal → Bool
  | JSVal.num n, JSVal.num m => n.isFinite && decide (m = n)
  | JSVal.num n, JSVal.null => !n.isFinite
  | JSVal.undefined, JSVal.null => true
  | JSVal.null, JSVal.null => true
  | JSVal.bool b, JSVal.bool c => b == c
  | JSVal.str s, JSVal.str t => s == t
  | JSVal.arr _, JSVal.arr _ => true
  | JSVal.obj _, JSVal.obj _ => true
  | _, _ => false

/-! ## Sample data -/

/-- The JSON text of a coordinates object whose array reads `inner`. -/
def pointText (inner : String) : String :=
  "\x7b\"type\":\"Point\",\"coordinates\":[" ++ inner ++ "]\x7d"

/-- The JSON text of the location object of the sample draft. -/
def sampleLocationText : String :=
  "\x7b\"address\":\"MG Road\",\"country\":\"India\"\x7d"

/-- Longitude 77.2090. -/
def delhiLng : JSNum := JSNum.fin 77209 (-3)

/-- Latitude 28.6139. -/
def delhiLat : JSNum := JSNum.fin 286139 (-4)

/-- A coordinates object with the given array. -/
def pointOf (items : List JSVal) : JSVal :=
  JSVal.obj [("type", JSVal.str "Point"), ("coordinates", JSVal.arr items)]

/-- The builtin `JSON.parse` on the texts used in the examples; any other text
is taken as malformed. -/
def sampleParse (s : String) : Except JSError JSVal :=
  if s == pointText "77.209,28.6139" then .ok (pointOf [JSVal.num delhiLng, JSVal.num delhiLat])
  else if s == pointText "0,0" then .ok (pointOf [JSVal.zero, JSVal.zero])
  else if s == pointText "0,28.6139" then .ok (pointOf [JSVal.zero, JSVal.num delhiLat])
  else if s == pointText "77.209,null" then .ok (pointOf [JSVal.num delhiLng, JSVal.null])
  else if s == pointText "1e999,28.6139" then
    .ok (pointOf [JSVal.num (JSNum.inf false), JSVal.num delhiLat])
  else if s == "null" then .ok JSVal.null
  else if s == sampleLocationText then
    .ok (JSVal.obj [("address", JSVal.str "MG Road"), ("country", JSVal.str "India")])
  else .error JSError.syntaxError

/-- The text `JSON.stringify` writes for a number: `null` for `NaN` and the
infinities; the sample numbers in their usual form, any other finite number as
the JSON numeral `m e k` of the same value. -/
def sampleNumberText (n : JSNum) : String :=
  match n with
  | JSNum.fin m e =>
    if n = delhiLng then "77.209"
    else if n = delhiLat then "28.6139"
    else if m = 0 then "0"
    else toString m ++ "e" ++ toString e
  | _ => "null"

/-- The builtin `JSON.stringify` on the two objects the form serialises. -/
def sampleStringify (v : JSVal) : String :=
  match v with
  | JSVal.obj [(_, JSVal.str "Point"), (_, JSVal.arr [JSVal.num a, JSVal.num b])] =>
    pointText (sampleNumberText a ++ "," ++ sampleNumberText b)
  | JSVal.obj [(_, JSVal.str a), (_, JSVal.str c)] =>
    "\x7b\"address\":\"" ++ a ++ "\",\"country\":\"" ++ c ++ "\"\x7d"
  | _ => "null"

/-- A server environment for the examples: every body passes `validateReport`
and the calls after creation succeed. -/
def sampleEnv : ServerEnv where
  jsonParse := sampleParse
  validateReport := fun _ => true
  toNumber := fun _ => JSNum.nan
  now := 0
  rewardUser := fun _ => .ok ()

/-- The id of the signed-in user of the examples. -/
def sampleUser : String := "64b7f0c2a1d3e4f5a6b7c8d9"

/-- The draft "Pothole near junction" with the given coordinates. -/
def sampleDraft (lat lng : JSVal) : Draft where
  selectedType := "pothole"
  location := "MG Road"
  lat := lat
  lng := lng
  description := "Pothole near junction"
  severity := "medium"
  photo := none
  userId := sampleUser

/-- A stored sample report without a point (its `coordinates` hold the schema
defaults) and without engagement. -/
def sampleReport : Report where
  type := "pothole"
  description := "Pothole near junction"
  location := JSVal.obj [("address", JSVal.str "MG Road"), ("country", JSVal.str "India")]
  coordinates := pointOf []
  severity := "medium"
  status := "pending"
  reportedBy := JSVal.str sampleUser
  likes := []
  comments := []
  votes := { up := [], down := [] }
  views := JSVal.zero
  viewedBy := []
  isActive := true
  createdAt := 0

/-- The request body of the sample report with `coordinates` set to `c`. -/
def sampleBody (c : JSVal) : JSObj :=
  [("type", JSVal.str "pothole"), ("description", JSVal.str "Pothole near junction"),
   ("severity", JSVal.str "medium"), ("coordinates", c),
   ("location", JSVal.str sampleLocationText)]


/-- The same request sent as a JSON document: `location` and `coordinates`
arrive as structured values. -/
def sampleJsonBody (c : JSVal) : JSObj :=
  [("type", JSVal.str "pothole"), ("description", JSVal.str "Pothole near junction"),
   ("severity", JSVal.str "medium"), ("coordinates", c),
   ("location", JSVal.obj [("address", JSVal.str "MG Road"), ("country", JSVal.str "India")])]

/-! ## Predicates on votes and comments -/

namespace Report

/-- The users referenced by `votes.up`, in order. -/
def upVoters (r : Report) : List ObjectId := r.votes.up.filterMap UserEntry.user

/-- The users referenced by `votes.down`, in order. -/
def downVoters (r : Report) : List ObjectId := r.votes.down.filterMap UserEntry.user

/-- The property that every user appears in at most one of `votes.up` and
`votes.down`, and at most once in that set. -/
def votesExclusive (r : Report) : Prop := (r.upVoters ++ r.downVoters).Nodup

instance (r : Report) : Decidable r.votesExclusive :=
  inferInstanceAs (Decidable (r.upVoters ++ r.downVoters).Nodup)

/-- The number of entries the user has in `votes.up`. -/
def upCount (r : Report) (userId : ObjectId) : Nat :=
  r.votes.up.count { user := some userId }

/-- The number of entries the user has in `votes.down`. -/
def downCount (r : Report) (userId : ObjectId) : Nat :=
  r.votes.down.count { user := some userId }

end Report

/-- A stored report in which user `a` holds two entries in `votes.up` and one
in `votes.down`, and user `b` one in `votes.up`. -/
def sampleVotedReport : Report :=
  { sampleReport with votes :=
      { up := [{ user := some { hex := "a" } }, { user := some { hex := "b" } },
               { user := some { hex := "a" } }],
        down := [{ user := some { hex := "a" } }] } }

/-- A create request whose body also carries a `likes` array with one entry
that names no user, and a `votes.up` array with one such entry. -/
def sampleOrphanBody : JSObj :=
  sampleJsonBody JSVal.undefined ++
    [("likes", JSVal.arr [JSVal.obj []]),
     ("votes", JSVal.obj [("up", JSVal.arr [JSVal.obj []])])]

/-- The report that `sampleOrphanBody` creates: one like and one up-vote, both
without a user reference. -/
def sampleOrphanReport : Report :=
  { sampleReport with
      likes := [{ user := none }],
      votes := { up := [{ user := none }], down := [] } }

/-! ## The API client (`src/utils/api.js`) -/

/-- The part of `error.response` that is read: the status and `data?.message`
(absent when there is none). -/
structure ErrorResponse where
  status : Nat
  message : Option String
  deriving Repr, DecidableEq

/-- An error object as the `catch` blocks read it: `code`, `response`, whether
`request` is set, and `message`. -/
structure ClientError where
  code : Option String
  response : Option ErrorResponse
  request : Bool
  message : String
  deriving Repr, DecidableEq

/-- The object `new Error(message)`: it has neither `code` nor `response` nor
`request`. -/
def newError (message : String) : ClientError :=
  { code := none, response := none, request := false, message := message }

/-- The operator `a || b` on an optional string and a fallback: the string when
it is there and not empty. -/
def orElse (a : Option String) (fallback : String) : String :=
  match a with
  | some s => if s == "" then fallback else s
  | none => fallback

/-- The error handler of the response interceptor (lines 25-47): the `Error`
it throws. On a 401 it also removes the token and redirects to `/login`. -/
def responseInterceptor (error : ClientError) : ClientError :=
  match error.response with
  | none => newError "Network error - please check your connection"
  | some resp =>
    if resp.status = 429 then
      newError "Too many requests. Please wait a moment and try again."
    else if resp.status = 401 then
      newError "Session expired - please login again"
    else
      newError (orElse resp.message (orElse (some error.message) "An error occurred"))

/-- The call `apiClient.post('/reports', ...)` of attempt `n`: `transport n` is
what the network gives for that attempt, the response interceptors turn a
response into its `data` and an error into the `Error` of the handler. -/
def apiClientPost (transport : Nat → Except ClientError JSVal) (n : Nat) :
    Except ClientError JSVal :=
  match transport n with
  | .ok data => .ok data
  | .error e => .error (responseInterceptor e)

/-- The error thrown after the last attempt (lines 129-144). -/
def finalError (error : ClientError) : ClientError :=
  if error.code = some "ECONNABORTED" then
    newError "Request timed out. Please check your connection and try again."
  else
    match error.response with
    | some resp => newError (orElse resp.message "Server error occurred")
    | none =>
      if error.request then newError "Network error - please check your connection"
      else newError (orElse (some error.message) "An error occurred")

/-- What a call of `createReport` did: the number of requests it sent, the
delays it waited (milliseconds, in order), and how it ended: the value it
returned, or the error it threw. -/
structure CallTrace where
  requests : Nat
  waits : List Nat
  result : Except ClientError JSVal
  deriving Repr

/-- The `for` loop of `createReport` (lines 115-149) from `attempt` on, with
`remaining` iterations left before `attempt <= retries` turns false. Falling
out of the loop returns `undefined`. -/
def retryLoop (post : Nat → Except ClientError JSVal) (retries : Int) :
    Nat → Nat → CallTrace
  | 0, _ => { requests := 0, waits := [], result := .ok JSVal.undefined }
  | remaining + 1, attempt =>
    match post attempt with
    | .ok response => { requests := 1, waits := [], result := .ok response }
    | .error error =>
      if (attempt : Int) = retries then
        { requests := 1, waits := [], result := .error (finalError error) }
      else
        let rest := retryLoop post retries remaining (attempt + 1)
        { requests := 1 + rest.requests,
          waits := 1000 * attempt :: rest.waits,
          result := rest.result }

/-- Method `createReport(reportData, retries)` (lines 114-150) over the
outcomes `post 1`, `post 2`, ... of `apiClient.post`: the loop starts at
attempt 1 and runs `retries` times at most. -/
def createReportWith (post : Nat → Except ClientError JSVal) (retries : Int) : CallTrace :=
  retryLoop post retries retries.toNat 1

/-- Method `createReport` as the module exports it, through `apiClient` with
its response interceptor. -/
def createReport (transport : Nat → Except ClientError JSVal) (retries : Int) : CallTrace :=
  createReportWith (apiClientPost transport) retries

/-- A transport for the examples: the given outcomes for the attempts 1, 2, ...,
and a refused connection after them. -/
def sampleTransport (outcomes : List (Except ClientError JSVal)) (n : Nat) :
    Except ClientError JSVal :=
  (outcomes.get? (n - 1)).getD
    (.error { code := some "ERR_NETWORK", response := none, request := true,
              message := "Network Error" })

/-- The error of a request that ran into the 60 s timeout. -/
def timeoutError : ClientError :=
  { code := some "ECONNABORTED", response := none, request := true,
    message := "timeout of 60000ms exceeded" }

/-- The error of a response with status 400 and a server message. -/
def badRequestError : ClientError :=
  { code := some "ERR_BAD_REQUEST",
    response := some { status := 400, message := some "Validation failed" },
    request := true, message := "Request failed with status code 400" }

/-- The body of a 201 answer. -/
def createdResponse : JSVal :=
  JSVal.obj [("status", JSVal.str "success")]

/-! ## The frame of an engagement call -/

/-- The entries that are not those of user `u`, in their order. -/
def othersOf (u : ObjectId) (entries : List UserEntry) : List UserEntry :=
  entries.filter (fun e => decide (e.user ≠ some u))

/-- The frame of a call by `u` that turns report `r` into `r1`: the entries of
everyone else in `likes`, `votes.up` and `votes.down` are the same, in the
same order, and `comments`, `views` and `status` are untouched. -/
def Report.sameForOthers (u : ObjectId) (r r1 : Report) : Prop :=
  othersOf u r1.likes = othersOf u r.likes ∧
  othersOf u r1.votes.up = othersOf u r.votes.up ∧
  othersOf u r1.votes.down = othersOf u r.votes.down ∧
  r1.comments = r.comments ∧ r1.views = r.views ∧ r1.status = r.status

/-! ## `handleSubmit` (`src/pages/ReportPage.jsx`, lines 97-195) -/

/-- What `handleSubmit` does that can be observed from outside, in order. -/
inductive UiEvent where
  | toastError (message : String)
  | toastSuccess (message : String)
  | navigate (path : String)
  | setIsSubmitting (value : Bool)
  | testConnection
  | createReport (form : List (String × FormValue)) (requests : Nat)
  deriving Repr, DecidableEq

/-- What `handleSubmit` reads besides the form: `JSON.stringify`, whether
`useAuth()` holds a user, the stored token, the outcome of
`apiService.testConnection()` and the outcomes of the POST attempts. -/
structure ClientEnv where
  stringify : JSVal → String
  user : Bool
  token : Option String
  connection : Except ClientError Unit
  transport : Nat → Except ClientError JSVal

/-- The test `!token` on what `localStorage.getItem` returns: true for `null`
and for the empty string. -/
def tokenMissing (token : Option String) : Bool :=
  match token with
  | none => true
  | some t => t == ""

/-- The handler `handleSubmit`: the events of one submission of draft `d`. The
redirect to `/map` is scheduled 2000 ms after a success. -/
def handleSubmit (env : ClientEnv) (d : Draft) : List UiEvent :=
  if d.selectedType == "" || d.location == "" || d.description == "" then
    [UiEvent.toastError "Please fill in all required fields"]
  else if !env.user then
    [UiEvent.toastError "Please login to submit a report."]
  else if tokenMissing env.token then
    [UiEvent.toastError "Authentication token missing. Please login again.",
     UiEvent.navigate "/login"]
  else
    [UiEvent.setIsSubmitting true, UiEvent.testConnection] ++
    match env.connection with
    | .error _ =>
      [UiEvent.toastError "Connection test failed. Please check your internet connection.",
       UiEvent.setIsSubmitting false]
    | .ok _ =>
      [UiEvent.createReport (buildFormData env.stringify d)
        (createReport env.transport 2).requests] ++
      (match (createReport env.transport 2).result with
        | .ok _ =>
          [UiEvent.toastSuccess
            "Report submitted successfully! Your report will appear on the live map.",
           UiEvent.setIsSubmitting false, UiEvent.navigate "/map"]
        | .error e =>
          [UiEvent.toastError (orElse (some e.message)
            "Failed to submit report. Please try again."),
           UiEvent.setIsSubmitting false])

/-- An event that is a network call: the connection test or the report POST. -/
def UiEvent.isNetworkCall : UiEvent → Bool
  | UiEvent.testConnection => true
  | UiEvent.createReport _ _ => true
  | _ => false

/-- An event that enters the submitting state. -/
def UiEvent.entersSubmitting : UiEvent → Bool
  | UiEvent.setIsSubmitting true => true
  | _ => false

/-! ## The listing (`routes/reports.js`, lines 187-207) -/

/-- The order of `.sort({ createdAt: -1 })`: the newer report first. -/
def newerFirst (a b : Report) : Prop := b.createdAt ≤ a.createdAt

instance : DecidableRel newerFirst :=
  fun a b => inferInstanceAs (Decidable (b.createdAt ≤ a.createdAt))

/-- The query `Report.find({ isActive: true }).sort({ createdAt: -1 }).limit(100)`
over the stored reports. -/
def listReports (store : List Report) : List Report :=
  ((store.filter (fun r => r.isActive)).insertionSort newerFirst).take 100

/-! ## The upload middleware (`routes/reports.js`, lines 11-52) -/

/-- A file part of the multipart request. -/
structure UploadedFile where
  fieldname : String
  mimetype : String
  size : Nat
  deriving Repr, DecidableEq

/-- An error handed to the callback of `upload`: a `multer.MulterError` with its
code, or any other `Error`. -/
inductive UploadError where
  | multer (code : String) (message : String)
  | other (message : String)
  deriving Repr, DecidableEq

/-- The method `String.prototype.startsWith`. -/
def jsStartsWith (s start : String) : Bool := start.toList.isPrefixOf s.toList

/-- The option `fileFilter` (lines 17-24): the error it passes to `cb`, if any. -/
def fileFilter (file : UploadedFile) : Option String :=
  if jsStartsWith file.mimetype "image/" then none
  else some "Only image files are allowed"

/-- The size limit `10 * 1024 * 1024` of line 14. -/
def fileSizeLimit : Nat := 10 * 1024 * 1024

/-- The library call `multer({ limits, fileFilter }).single('photo')` on the file
parts of a request, in the order multer meets them: a part in another field
is unexpected, then `fileFilter` decides, then the size limit applies; a
second part exceeds `files: 1`. The result is the error given to the
callback, if any. -/
def multerSingle (files : List UploadedFile) : Option UploadError :=
  match files with
  | [] => none
  | file :: more =>
    if file.fieldname != "photo" then
      some (UploadError.multer "LIMIT_UNEXPECTED_FILE" "Unexpected field")
    else
      match fileFilter file with
      | some message => some (UploadError.other message)
      | none =>
        if file.size > fileSizeLimit then
          some (UploadError.multer "LIMIT_FILE_SIZE" "File too large")
        else if more.isEmpty then none
        else some (UploadError.multer "LIMIT_FILE_COUNT" "Too many files")

/-- The callback of lines 32-51: the answer to an upload error, or `next()`. -/
def uploadCallback (err : Option UploadError) : Except Response Unit :=
  match err with
  | some (UploadError.multer code message) =>
    if code == "LIMIT_FILE_SIZE" then
      .error (Response.json 400 "File size too large. Maximum size is 10MB.")
    else .error (Response.json 400 ("File upload error: " ++ message))
  | some (UploadError.other message) => .error (Response.json 400 message)
  | none => .ok ()

/-- The route `POST /` after `protect`: the upload middleware, then the
handler. -/
def postReport (env : ServerEnv) (userId : String) (files : List UploadedFile)
    (body : JSObj) : CreateOutcome :=
  match uploadCallback (multerSingle files) with
  | .error resp => { created := none, response := resp }
  | .ok _ => createHandler env userId body

/-- A client environment for the examples: signed in, server reachable. -/
def sampleClientEnv (transport : Nat → Except ClientError JSVal) : ClientEnv where
  stringify := sampleStringify
  user := true
  token := some "token"
  connection := .ok ()
  transport := transport

/-- The error of a response with status 500 whose body carries no message. -/
def serverError : ClientError :=
  { code := some "ERR_BAD_RESPONSE",
    response := some { status := 500, message := none },
    request := true, message := "Request failed with status code 500" }

/-- A create request whose body also supplies engagement state: a like, a
comment and an up-vote by the signed-in user, a view counter and a viewer. -/
def sampleStuffedBody : JSObj :=
  sampleJsonBody JSVal.undefined ++
    [("likes", JSVal.arr [JSVal.obj [("user", JSVal.str sampleUser)]]),
     ("comments", JSVal.arr
        [JSVal.obj [("user", JSVal.str sampleUser), ("text", JSVal.str "Great report")]]),
     ("votes", JSVal.obj [("up", JSVal.arr [JSVal.obj [("user", JSVal.str sampleUser)]])]),
     ("views", JSVal.num (JSNum.fin 5000 0)),
     ("viewedBy", JSVal.arr [JSVal.obj [("user", JSVal.str sampleUser)]])]

/-- The id of another user. -/
def otherUserId : String := "000000000000000000000001"

/-- A create request whose body carries vote sets: in `votes.up` one entry that
names no user and one of the signed-in user, in `votes.down` one more of the
signed-in user. -/
def sampleSplitVoteBody : JSObj :=
  sampleJsonBody JSVal.undefined ++
    [("votes", JSVal.obj
        [("up", JSVal.arr [JSVal.obj [], JSVal.obj [("user", JSVal.str sampleUser)]]),
         ("down", JSVal.arr [JSVal.obj [("user", JSVal.str sampleUser)]])])]

/-- The report that `sampleSplitVoteBody` creates: the signed-in user is in both
vote sets, next to an up-vote without a user reference. -/
def sampleSplitVoteReport : Report :=
  { sampleReport with
      votes := { up := [{ user := none }, { user := some { hex := sampleUser } }],
                 down := [{ user := some { hex := sampleUser } }] } }

/-! ## Properties of objects -/

theorem JSObj.has_delete (o : JSObj) (key : String) : (JSObj.delete o key).has key = false := by
  induction o with
  | nil => rfl
  | cons p rest ih =>
    by_cases h : p.1 = key
    · simp [JSObj.delete, JSObj.has, List.filter_cons, h]
    · simp [JSObj.delete, JSObj.has, List.filter_cons, h]

theorem JSObj.get_of_has_false (o : JSObj) (key : String) (h : o.has key = false) :
    o.get key = JSVal.undefined := by
  induction o with
  | nil => rfl
  | cons p rest ih =>
    obtain ⟨k, v⟩ := p
    simp only [JSObj.has, List.any_cons, Bool.or_eq_false_iff] at h
    have hk : (key == k) = false := by
      have := h.1
      simp only [beq_eq_false_iff_ne, ne_eq] at this ⊢
      exact fun e => this e.symm
    have ih' := ih (by simpa [JSObj.has] using h.2)
    simp only [JSObj.get, List.lookup_cons, hk] at ih' ⊢
    exact ih'

theorem JSObj.get_delete (o : JSObj) (key : String) :
    (JSObj.delete o key).get key = JSVal.undefined :=
  JSObj.get_of_has_false _ _ (JSObj.has_delete o key)

theorem JSObj.lookup_delete_ne (o : JSObj) (key other : String) (h : other ≠ key) :
    (JSObj.delete o key).lookup other = o.lookup other := by
  induction o with
  | nil => rfl
  | cons p rest ih =>
    obtain ⟨k, v⟩ := p
    by_cases hk : k = key
    · subst hk
      have : (other == k) = false := by simpa using h
      simpa [JSObj.delete, List.filter_cons, List.lookup_cons, this] using ih
    · by_cases ho : other = k
      · subst ho
        simp [JSObj.delete, List.filter_cons, List.lookup_cons, hk]
      · have : (other == k) = false := by simpa using ho
        simpa [JSObj.delete, List.filter_cons, List.lookup_cons, hk, this] using ih

theorem JSObj.get_delete_ne (o : JSObj) (key other : String) (h : other ≠ key) :
    (JSObj.delete o key).get other = o.get other := by
  simp [JSObj.get, JSObj.lookup_delete_ne o key other h]

theorem JSObj.lookup_set (o : JSObj) (key : String) (v : JSVal) :
    (JSObj.set o key v).lookup key = some v := by
  unfold JSObj.set
  split
  · rename_i h
    induction o with
    | nil => simp [JSObj.has] at h
    | cons p rest ih =>
      obtain ⟨k, w⟩ := p
      by_cases hk : k = key
      · subst hk
        simp [List.lookup_cons]
      · have hk2 : (key == k) = false := by
          simpa using fun e : key = k => hk e.symm
        have hrest : JSObj.has rest key = true := by
          simpa [JSObj.has, hk] using h
        simpa [List.lookup_cons, hk, hk2] using ih hrest
  · induction o with
    | nil => simp [List.lookup_cons]
    | cons p rest ih =>
      rename_i h
      obtain ⟨k, w⟩ := p
      have h2 : ¬ (k = key) ∧ ¬ JSObj.has rest key = true := by
        simpa [JSObj.has] using h
      have hk2 : (key == k) = false := by
        simpa using fun e : key = k => h2.1 e.symm
      simpa [List.lookup_cons, hk2] using ih h2.2

theorem JSObj.get_set (o : JSObj) (key : String) (v : JSVal) :
    (JSObj.set o key v).get key = v := by
  simp [JSObj.get, JSObj.lookup_set]

theorem JSObj.lookup_map_ne (o : JSObj) (key other : String) (v : JSVal) (h : other ≠ key) :
    (o.map (fun p => if p.1 == key then (key, v) else p)).lookup other = o.lookup other := by
  induction o with
  | nil => rfl
  | cons p rest ih =>
    obtain ⟨k, w⟩ := p
    by_cases hk : k = key
    · subst hk
      have : (other == k) = false := by simpa using h
      simpa [List.lookup_cons, this] using ih
    · by_cases ho : other = k
      · subst ho
        simp [List.lookup_cons, hk]
      · have : (other == k) = false := by simpa using ho
        simpa [List.lookup_cons, hk, this] using ih

theorem JSObj.lookup_append_ne (o : JSObj) (key other : String) (v : JSVal) (h : other ≠ key) :
    (o ++ [(key, v)]).lookup other = o.lookup other := by
  induction o with
  | nil =>
    have : (other == key) = false := by simpa using h
    simp [List.lookup_cons, this]
  | cons p rest ih =>
    obtain ⟨k, w⟩ := p
    by_cases ho : other = k
    · subst ho
      simp [List.lookup_cons]
    · have : (other == k) = false := by simpa using ho
      simpa [List.lookup_cons, this] using ih

theorem JSObj.lookup_set_ne (o : JSObj) (key other : String) (v : JSVal) (h : other ≠ key) :
    (JSObj.set o key v).lookup other = o.lookup other := by
  unfold JSObj.set
  split
  · exact JSObj.lookup_map_ne o key other v h
  · exact JSObj.lookup_append_ne o key other v h

theorem JSObj.get_set_ne (o : JSObj) (key other : String) (v : JSVal) (h : other ≠ key) :
    (JSObj.set o key v).get other = o.get other := by
  simp [JSObj.get, JSObj.lookup_set_ne o key other v h]

theorem JSObj.has_eq_isSome (o : JSObj) (key : String) :
    o.has key = (o.lookup key).isSome := by
  induction o with
  | nil => rfl
  | cons p rest ih =>
    obtain ⟨k, w⟩ := p
    by_cases hk : k = key
    · subst hk
      simp [JSObj.has, List.lookup_cons]
    · have hk2 : (key == k) = false := by
        simpa using fun e : key = k => hk e.symm
      have hk3 : (k == key) = false := by simpa using hk
      simp only [JSObj.has, List.any_cons, hk3, Bool.false_or, List.lookup_cons, hk2] at ih ⊢
      exact ih

theorem JSObj.has_set (o : JSObj) (key : String) (v : JSVal) :
    (JSObj.set o key v).has key = true := by
  simp [JSObj.has_eq_isSome, JSObj.lookup_set]

theorem JSObj.has_set_ne (o : JSObj) (key other : String) (v : JSVal) (h : other ≠ key) :
    (JSObj.set o key v).has other = o.has other := by
  simp [JSObj.has_eq_isSome, JSObj.lookup_set_ne o key other v h]

theorem JSObj.has_delete_ne (o : JSObj) (key other : String) (h : other ≠ key) :
    (JSObj.delete o key).has other = o.has other := by
  simp [JSObj.has_eq_isSome, JSObj.lookup_delete_ne o key other h]


/-! ## The coordinate checks -/

theorem routeCoordsInvalid_eq (coords : JSVal) :
    routeCoordsInvalid coords = !codeAccepts coords := by
  cases coords with
  | arr items =>
    match items with
    | [] => rfl
    | [a] => cases a <;> rfl
    | [a, b] =>
      cases a <;> cases b <;>
        simp [routeCoordsInvalid, codeAccepts, JSVal.isArray, JSVal.length, JSVal.index,
          JSVal.typeOf, JSVal.isNaN, JSVal.isZero, Bool.or_assoc]
    | a :: b :: c :: rest =>
      simp [routeCoordsInvalid, codeAccepts, JSVal.isArray, JSVal.length]
  | _ => rfl

theorem hookCoordsInvalid_eq (coords : JSVal) :
    hookCoordsInvalid coords = !codeAccepts coords := by
  cases coords with
  | arr items =>
    match items with
    | [] => rfl
    | [a] => cases a <;> rfl
    | [a, b] =>
      cases a <;> cases b <;>
        simp [hookCoordsInvalid, codeAccepts, JSVal.isArray, JSVal.length, JSVal.index,
          JSVal.typeOf, JSVal.isNaN, JSVal.isZero, Bool.or_assoc]
    | a :: b :: c :: rest =>
      simp [hookCoordsInvalid, codeAccepts, JSVal.isArray, JSVal.length]
  | _ => rfl

theorem coordinatesIncluded_eq (lat lng : JSVal) :
    coordinatesIncluded lat lng = codeAccepts (JSVal.arr [lng, lat]) := by
  cases lat <;> cases lng <;>
    simp [coordinatesIncluded, codeAccepts, JSVal.isNull, JSVal.typeOf, JSVal.isNaN,
      JSVal.isZero, Bool.and_assoc, Bool.and_comm, Bool.and_left_comm]

theorem member_eq_memberD (v w : JSVal) (key : String) (h : v.member key = .ok w) :
    v.memberD key = w := by
  cases v <;> simp_all [JSVal.member, JSVal.memberD]

theorem memberD_of_member_error (v : JSVal) (key : String) (e : JSError)
    (h : v.member key = .error e) : v.memberD key = JSVal.undefined := by
  cases v <;> simp_all [JSVal.member, JSVal.memberD]

theorem JSObj.delete_set (o : JSObj) (key : String) (v : JSVal) :
    JSObj.delete (JSObj.set o key v) key = JSObj.delete o key := by
  have hmap : ∀ l : JSObj,
      JSObj.delete (l.map (fun p => if p.1 == key then (key, v) else p)) key
        = JSObj.delete l key := by
    intro l
    induction l with
    | nil => rfl
    | cons p rest ih =>
      obtain ⟨k, w⟩ := p
      by_cases hk : k = key
      · subst hk
        simpa [JSObj.delete, List.filter_cons] using ih
      · simpa [JSObj.delete, List.filter_cons, hk] using ih
  unfold JSObj.set
  split
  · exact hmap o
  · simp [JSObj.delete, List.filter_append]

/-- The effect of lines 73-94 on a body whose `coordinates` is the non-empty
string `s`. -/
theorem parseCoordinates_string (env : ServerEnv) (body : JSObj) (s : String)
    (hbody : body.get "coordinates" = JSVal.str s) (hs : s ≠ "") :
    parseCoordinates env body =
      match env.jsonParse s with
      | .error _ => body.delete "coordinates"
      | .ok parsed =>
        if codeAccepts (parsed.memberD "coordinates") then body.set "coordinates" parsed
        else body.delete "coordinates" := by
  have hguard : ((JSVal.str s).truthy && (JSVal.str s).typeOf == "string") = true := by
    simp [JSVal.truthy, JSVal.typeOf, hs]
  unfold parseCoordinates
  rw [hbody, if_pos hguard]
  cases hp : env.jsonParse s with
  | error e => simp only [hp]
  | ok parsed =>
    simp only [hp]
    cases hm : parsed.member "coordinates" with
    | error e =>
      simp [memberD_of_member_error parsed _ e hm, codeAccepts, JSObj.delete_set]
    | ok coords =>
      simp only [member_eq_memberD parsed coords _ hm, routeCoordsInvalid_eq,
        JSObj.delete_set]
      cases codeAccepts coords <;> simp

/-- The body is left as it is when `coordinates` is not a non-empty string. -/
theorem parseCoordinates_skip (env : ServerEnv) (body : JSObj)
    (h : ∀ s, body.get "coordinates" = JSVal.str s → s = "") :
    parseCoordinates env body = body := by
  unfold parseCoordinates
  cases hc : body.get "coordinates" with
  | str s =>
    have := h s hc
    subst this
    simp [JSVal.truthy]
  | _ => simp [JSVal.truthy, JSVal.typeOf]

theorem truthy_memberD_isObj (v : JSVal) (key : String)
    (h : (v.memberD key).truthy = true) : ∃ fields, v = JSVal.obj fields := by
  cases v <;> simp_all [JSVal.memberD, JSVal.truthy]

/-- The effect of the hook on a document whose `location.coordinates` is truthy. -/
theorem preSave_truthy (r : Report)
    (htruthy : (r.location.memberD "coordinates").truthy = true) :
    preSave r =
      if codeAccepts ((r.location.memberD "coordinates").memberD "coordinates") then r
      else { r with location := r.location.deleteMember "coordinates" } := by
  obtain ⟨fields, hf⟩ := truthy_memberD_isObj _ _ htruthy
  unfold preSave
  have hl : r.location.truthy = true := by rw [hf]; rfl
  simp only [hl, htruthy, Bool.and_self, if_true, hookCoordsInvalid_eq]
  cases codeAccepts ((r.location.memberD "coordinates").memberD "coordinates") <;> simp

/-- The hook leaves a document alone when `location.coordinates` is falsy. -/
theorem preSave_falsy (r : Report)
    (hfalsy : (r.location.memberD "coordinates").truthy = false) : preSave r = r := by
  unfold preSave
  simp [hfalsy]

theorem memberD_deleteMember (v : JSVal) (key : String) :
    (v.deleteMember key).memberD key = JSVal.undefined := by
  cases v <;> simp [JSVal.deleteMember, JSVal.memberD, JSObj.get_delete]

theorem preSave_kept_iff (r : Report) (v : JSVal)
    (hloc : r.location.memberD "coordinates" = v) (htruthy : v.truthy = true) :
    (preSave r).location.memberD "coordinates" = v ↔
      codeAccepts (v.memberD "coordinates") = true := by
  have ht : (r.location.memberD "coordinates").truthy = true := by rw [hloc]; exact htruthy
  rw [preSave_truthy r ht, hloc]
  cases hc : codeAccepts (v.memberD "coordinates")
  · simp only [Bool.false_eq_true, if_false, iff_false, memberD_deleteMember]
    intro hv
    rw [← hv] at htruthy
    simp [JSVal.truthy] at htruthy
  · simp [hloc]

/-! ## Claims on the coordinate rule -/

/-- C1 (as amended). For every value `parsed` that `JSON.parse` yields for the
`coordinates` string of a create request, the route keeps the field (holding
`parsed`) if and only if the `coordinates` member of `parsed` is an array of
exactly two numbers, neither of them `NaN` and neither of them zero; and the
`pre('save')` hook, for a truthy `parsed` at `location.coordinates`, keeps it
on exactly the same condition. -/
theorem coordinate_checks_keep_iff (env : ServerEnv) (body : JSObj) (s : String)
    (parsed : JSVal) (r : Report)
    (hbody : body.get "coordinates" = JSVal.str s) (hs : s ≠ "")
    (hparse : env.jsonParse s = .ok parsed)
    (hloc : r.location.memberD "coordinates" = parsed) :
    ((parseCoordinates env body).has "coordinates" = true ↔
        codeAccepts (parsed.memberD "coordinates") = true) ∧
    (codeAccepts (parsed.memberD "coordinates") = true →
        (parseCoordinates env body).get "coordinates" = parsed) ∧
    (parsed.truthy = true →
      ((preSave r).location.memberD "coordinates" = parsed ↔
        codeAccepts (parsed.memberD "coordinates") = true)) := by
  rw [parseCoordinates_string env body s hbody hs, hparse]
  refine ⟨?_, ?_, fun ht => preSave_kept_iff r parsed hloc ht⟩
  · cases hc : codeAccepts (parsed.memberD "coordinates")
    · simp [hc, JSObj.has_delete]
    · simp [hc, JSObj.has_set]
  · intro hc
    simp [hc, JSObj.get_set]

/-- Witness for C1: the point (77.2090, 28.6139), sent as a JSON string, is kept
by the route and by the hook. -/
theorem coordinate_checks_keep_iff_witness :
    (parseCoordinates sampleEnv (sampleBody (JSVal.str (pointText "77.209,28.6139")))).has
        "coordinates" = true ∧
    (preSave { sampleReport with
        location :=
          JSVal.obj [("coordinates", pointOf [JSVal.num delhiLng, JSVal.num delhiLat])] }).location.memberD "coordinates"
      = pointOf [JSVal.num delhiLng, JSVal.num delhiLat] :=
  have h := coordinate_checks_keep_iff sampleEnv
    (sampleBody (JSVal.str (pointText "77.209,28.6139"))) (pointText "77.209,28.6139")
    (pointOf [JSVal.num delhiLng, JSVal.num delhiLat])
    { sampleReport with
      location :=
        JSVal.obj [("coordinates", pointOf [JSVal.num delhiLng, JSVal.num delhiLat])] }
    rfl (by decide) rfl rfl
  ⟨h.1.mpr rfl, (h.2.2 rfl).mpr rfl⟩

/-- C1 (as stated) fails. The point [0, 28.6139] is an array of two finite
numbers that are not both zero, yet the route deletes it and the hook deletes
it; the point [Infinity, 28.6139] has a component that is not finite, yet the
route keeps it. -/
theorem coordinate_checks_differ_from_spec_rule :
    specAccepts (JSVal.arr [JSVal.zero, JSVal.num delhiLat]) = true ∧
    (parseCoordinates sampleEnv (sampleBody (JSVal.str (pointText "0,28.6139")))).has
        "coordinates" = false ∧
    (preSave { sampleReport with
        location := JSVal.obj [("coordinates", pointOf [JSVal.zero, JSVal.num delhiLat])] }
      ).location.memberD "coordinates" = JSVal.undefined ∧
    specAccepts (JSVal.arr [JSVal.num (JSNum.inf false), JSVal.num delhiLat]) = false ∧
    (parseCoordinates sampleEnv (sampleBody (JSVal.str (pointText "1e999,28.6139")))).has
        "coordinates" = true ∧
    (preSave { sampleReport with
        location := JSVal.obj
          [("coordinates", pointOf [JSVal.num (JSNum.inf false), JSVal.num delhiLat])] }
      ).location.memberD "coordinates"
      = pointOf [JSVal.num (JSNum.inf false), JSVal.num delhiLat] := by
  refine ⟨rfl, rfl, rfl, rfl, rfl, rfl⟩

/-- The three test expressions agree on one and the same array held in memory:
`handleSubmit` puts a `coordinates` field into the payload if and only if the
test of the route accepts the array `[lng, lat]`, if and only if the test of
the hook accepts it. (What arrives at the route is the array read back from
JSON, which the theorems on the create request deal with.) -/
theorem coordinate_tests_agree_in_memory (stringify : JSVal → String) (d : Draft) :
    (((buildFormData stringify d).lookup "coordinates").isSome = true ↔
        routeCoordsInvalid (JSVal.arr [d.lng, d.lat]) = false) ∧
    (routeCoordsInvalid (JSVal.arr [d.lng, d.lat]) = false ↔
        hookCoordsInvalid (JSVal.arr [d.lng, d.lat]) = false) ∧
    (coordinatesIncluded d.lat d.lng = true →
      (buildFormData stringify d).lookup "coordinates"
        = some (FormValue.text (stringify (coordinatesData d.lat d.lng)))) := by
  have hinc := coordinatesIncluded_eq d.lat d.lng
  refine ⟨?_, ?_, ?_⟩
  · rw [routeCoordsInvalid_eq, ← hinc]
    cases hc : coordinatesIncluded d.lat d.lng <;>
      cases hp : d.photo <;> simp [buildFormData, hc, hp, List.lookup_cons]
  · rw [routeCoordsInvalid_eq, hookCoordsInvalid_eq]
  · intro hc
    cases hp : d.photo <;> simp [buildFormData, hc, hp, List.lookup_cons]


/-! ## From the body to the created report -/

theorem parseLocation_lookup (env : ServerEnv) (body body1 : JSObj) (key : String)
    (hkey : key ≠ "location") (h : parseLocation env body = .ok body1) :
    body1.lookup key = body.lookup key := by
  unfold parseLocation at h
  split at h
  · split at h
    · split at h
      · simp only [Except.ok.injEq] at h
        rw [← h]
        exact JSObj.lookup_set_ne body "location" key _ hkey
      · simp at h
    · simp only [Except.ok.injEq] at h
      rw [h]
  · simp only [Except.ok.injEq] at h
    rw [h]

theorem fallbackTitle_lookup (body body1 : JSObj) (key : String)
    (hkey : key ≠ "title") (h : fallbackTitle body = .ok body1) :
    body1.lookup key = body.lookup key := by
  unfold fallbackTitle at h
  split at h
  · split at h
    · simp only [Except.ok.injEq] at h
      rw [← h]
      exact JSObj.lookup_set_ne body "title" key _ hkey
    · simp at h
  · simp only [Except.ok.injEq] at h
    rw [h]

/-- The `coordinates` handed to `Report.create` are those lines 73-94 leave. -/
theorem createBody_coordinates (env : ServerEnv) (userId : String) (body body3 : JSObj)
    (h : createBody env userId body = .ok body3) :
    ∃ body1, parseLocation env body = .ok body1 ∧
      body1.lookup "coordinates" = body.lookup "coordinates" ∧
      body3.lookup "coordinates" = (parseCoordinates env body1).lookup "coordinates" := by
  unfold createBody at h
  cases hl : parseLocation env body with
  | error resp => simp [hl] at h
  | ok body1 =>
    refine ⟨body1, rfl, parseLocation_lookup env body body1 _ (by decide) hl, ?_⟩
    simp only [hl] at h
    split at h
    · cases ht : fallbackTitle
          (JSObj.set (parseCoordinates env body1) "reportedBy" (JSVal.str userId)) with
      | error e => simp [ht] at h
      | ok b =>
        simp only [ht, Except.ok.injEq] at h
        rw [← h, fallbackTitle_lookup _ b _ (by decide) ht]
        exact JSObj.lookup_set_ne _ "reportedBy" _ _ (by decide)
    · simp at h

/-- The hook changes nothing but `location`. -/
theorem preSave_eq (r : Report) : preSave r = { r with location := (preSave r).location } := by
  unfold preSave
  split
  · dsimp only
    split <;> rfl
  · rfl

theorem preSave_coordinates (r : Report) : (preSave r).coordinates = r.coordinates := by
  rw [preSave_eq]

theorem preSave_likes (r : Report) : (preSave r).likes = r.likes := by
  rw [preSave_eq]

theorem preSave_comments (r : Report) : (preSave r).comments = r.comments := by
  rw [preSave_eq]

theorem preSave_votes (r : Report) : (preSave r).votes = r.votes := by
  rw [preSave_eq]

theorem bind_eq_ok {α β : Type} (x : Except JSError α) (f : α → Except JSError β) (b : β)
    (h : (x >>= f) = .ok b) : ∃ a, x = .ok a ∧ f a = .ok b := by
  cases x with
  | error e => simp [bind, Except.bind] at h
  | ok a => exact ⟨a, rfl, h⟩

/-- The created document stores the cast of the `coordinates` of the body it is
given. -/
theorem create_coordinates (env : ServerEnv) (body : JSObj) (r : Report)
    (h : Report.create env body = .ok r) :
    castCoordinates env (body.get "coordinates") = .ok r.coordinates := by
  unfold Report.create at h
  obtain ⟨_, -, h⟩ := bind_eq_ok _ _ _ h
  obtain ⟨_, -, h⟩ := bind_eq_ok _ _ _ h
  obtain ⟨c, hcast, h⟩ := bind_eq_ok _ _ _ h
  obtain ⟨_, -, h⟩ := bind_eq_ok _ _ _ h
  obtain ⟨_, -, h⟩ := bind_eq_ok _ _ _ h
  obtain ⟨_, -, h⟩ := bind_eq_ok _ _ _ h
  obtain ⟨_, -, h⟩ := bind_eq_ok _ _ _ h
  obtain ⟨_, -, h⟩ := bind_eq_ok _ _ _ h
  obtain ⟨_, -, h⟩ := bind_eq_ok _ _ _ h
  obtain ⟨_, -, h⟩ := bind_eq_ok _ _ _ h
  obtain ⟨_, -, h⟩ := bind_eq_ok _ _ _ h
  obtain ⟨_, -, h⟩ := bind_eq_ok _ _ _ h
  split at h
  · simp only [save, Except.ok.injEq] at h
    rw [← h, preSave_coordinates]
    exact hcast
  · simp at h

/-- A body without `coordinates` gets the defaults of the nested path. -/
theorem castCoordinates_undefined (env : ServerEnv) :
    castCoordinates env JSVal.undefined = .ok (pointOf []) := rfl

/-- A point of two numbers, neither of them `NaN`, is stored as it is. -/
theorem castCoordinates_point (env : ServerEnv) (a b : JSNum)
    (ha : a.isNaN = false) (hb : b.isNaN = false) :
    castCoordinates env (pointOf [JSVal.num a, JSVal.num b])
      = .ok (pointOf [JSVal.num a, JSVal.num b]) := by
  simp [castCoordinates, pointOf, castEnum, castArray, castNumber, JSObj.get, List.lookup_cons,
    List.mapM, List.mapM.loop, ha, hb, bind, Except.bind, pure, Except.pure]

theorem createHandler_created (env : ServerEnv) (userId : String) (body : JSObj) (r : Report)
    (h : (createHandler env userId body).created = some r) :
    ∃ body3, createBody env userId body = .ok body3 ∧ Report.create env body3 = .ok r := by
  unfold createHandler at h
  cases hb : createBody env userId body with
  | error resp => simp [hb] at h
  | ok body3 =>
    refine ⟨body3, rfl, ?_⟩
    simp only [hb] at h
    cases hc : Report.create env body3 with
    | error e => simp [hc] at h
    | ok report =>
      simp only [hc] at h
      cases hr : env.rewardUser report <;> simp [hr] at h <;> rw [h]

theorem JSObj.get_eq_of_lookup_eq (o o1 : JSObj) (key : String)
    (h : o1.lookup key = o.lookup key) : o1.get key = o.get key := by
  simp [JSObj.get, h]

theorem JSObj.has_eq_of_lookup_eq (o o1 : JSObj) (key : String)
    (h : o1.lookup key = o.lookup key) : o1.has key = o.has key := by
  simp [JSObj.has_eq_isSome, h]

theorem codeAccepts_zero_left (x y : JSVal) (hx : x.isZero = true) :
    codeAccepts (JSVal.arr [x, y]) = false := by
  cases x <;> cases y <;> simp_all [codeAccepts, JSVal.isZero]


theorem multerBody_coordinates (stringify : JSVal → String) (d : Draft)
    (hinc : coordinatesIncluded d.lat d.lng = true) :
    (multerBody (buildFormData stringify d)).get "coordinates"
      = JSVal.str (stringify (coordinatesData d.lat d.lng)) := by
  cases hp : d.photo <;>
    simp [multerBody, buildFormData, hinc, hp, JSObj.get, List.lookup_cons]

theorem formData_coordinates_included (stringify : JSVal → String) (d : Draft)
    (hinc : coordinatesIncluded d.lat d.lng = true) :
    (buildFormData stringify d).lookup "coordinates"
      = some (FormValue.text (stringify (coordinatesData d.lat d.lng))) := by
  cases hp : d.photo <;> simp [buildFormData, hinc, hp, List.lookup_cons]

/-! ## The coordinate rule from the form to the hook -/

/-- A value read back from JSON for an element that is not a number is not a
number either; a number that is neither `NaN` nor an infinity is read back as
itself, and `NaN` as `null`. So, infinities apart, the check on the array that
arrives agrees with the check of the form. -/
theorem codeAccepts_readsBack (lat lng x y : JSVal)
    (hx : readsBack lng x = true) (hy : readsBack lat y = true)
    (hlat : lat.isInfinite = false) (hlng : lng.isInfinite = false) :
    codeAccepts (JSVal.arr [x, y]) = coordinatesIncluded lat lng := by
  rw [coordinatesIncluded_eq]
  cases lat with
  | num a =>
    cases lng with
    | num b =>
      cases x <;> cases y <;> cases a <;> cases b <;>
        simp_all [readsBack, JSNum.isFinite, JSVal.isInfinite, codeAccepts, JSNum.isNaN]
    | _ =>
      cases x <;> cases y <;> simp_all [readsBack, codeAccepts]
  | _ =>
    cases y <;> cases x <;> cases lng <;> simp_all [readsBack, codeAccepts]

/-- An accepted pair, infinities apart, is read back as it was written. -/
theorem readsBack_included (lat lng x y : JSVal)
    (hx : readsBack lng x = true) (hy : readsBack lat y = true)
    (hlat : lat.isInfinite = false) (hlng : lng.isInfinite = false)
    (hinc : coordinatesIncluded lat lng = true) : x = lng ∧ y = lat := by
  rw [coordinatesIncluded_eq] at hinc
  cases lat with
  | num a =>
    cases lng with
    | num b =>
      cases x <;> cases y <;> cases a <;> cases b <;>
        simp_all [readsBack, JSNum.isFinite, JSVal.isInfinite, codeAccepts, JSNum.isNaN]
    | _ => simp [codeAccepts] at hinc
  | _ => cases lng <;> simp [codeAccepts] at hinc

theorem formData_has_coordinates (stringify : JSVal → String) (d : Draft) :
    ((buildFormData stringify d).lookup "coordinates").isSome = coordinatesIncluded d.lat d.lng := by
  cases hc : coordinatesIncluded d.lat d.lng <;>
    cases hp : d.photo <;> simp [buildFormData, hc, hp, List.lookup_cons]

/-- A payload without the field arrives as a body without it. -/
theorem multerBody_no_coordinates (stringify : JSVal → String) (d : Draft)
    (hinc : coordinatesIncluded d.lat d.lng = false) :
    (multerBody (buildFormData stringify d)).lookup "coordinates" = none := by
  cases hp : d.photo <;>
    simp [multerBody, buildFormData, hinc, hp, List.lookup_cons]

theorem memberD_pointOf (items : List JSVal) :
    (pointOf items).memberD "coordinates" = JSVal.arr items := by
  simp [pointOf, JSVal.memberD, JSObj.get, List.lookup_cons]

/-- The route, run on a body whose `coordinates` is the text written for
`(lat, lng)`, keeps the field exactly when the form's check holds. -/
theorem route_keeps_iff_included (stringify : JSVal → String) (env : ServerEnv)
    (lat lng x y : JSVal) (body : JSObj)
    (hlat : lat.isInfinite = false) (hlng : lng.isInfinite = false)
    (hne : stringify (coordinatesData lat lng) ≠ "")
    (hwire : env.jsonParse (stringify (coordinatesData lat lng)) = .ok (pointOf [x, y]))
    (hx : readsBack lng x = true) (hy : readsBack lat y = true)
    (hbody : body.get "coordinates" = JSVal.str (stringify (coordinatesData lat lng))) :
    (parseCoordinates env body).has "coordinates" = coordinatesIncluded lat lng ∧
    (coordinatesIncluded lat lng = true →
      (parseCoordinates env body).get "coordinates" = pointOf [x, y]) := by
  rw [parseCoordinates_string env body _ hbody hne, hwire]
  simp only [memberD_pointOf, codeAccepts_readsBack lat lng x y hx hy hlat hlng]
  cases hc : coordinatesIncluded lat lng
  · simp [JSObj.has_delete]
  · simp [JSObj.has_set, JSObj.get_set]

/-- C3 (as amended). For every pair of values held by the form, neither of them
an infinity, and the text `JSON.stringify` writes for
`{type: 'Point', coordinates: [lng, lat]}`, which `JSON.parse` reads back as the
point `[x, y]`: `handleSubmit` puts the `coordinates` field into the payload if
and only if the route, run on a request that carries that text, keeps the
field, if and only if the `pre('save')` hook, run on a document that holds the
point read back at `location.coordinates`, keeps it. Run on the payload itself
the route keeps the field exactly when the form put it there, and the point it
keeps is `[lng, lat]`. -/
theorem coordinate_rule_same_on_both_sides (stringify : JSVal → String) (env : ServerEnv)
    (d : Draft) (body : JSObj) (r : Report) (x y : JSVal)
    (hlat : d.lat.isInfinite = false) (hlng : d.lng.isInfinite = false)
    (hne : stringify (coordinatesData d.lat d.lng) ≠ "")
    (hwire : env.jsonParse (stringify (coordinatesData d.lat d.lng)) = .ok (pointOf [x, y]))
    (hx : readsBack d.lng x = true) (hy : readsBack d.lat y = true)
    (hbody : body.get "coordinates" = JSVal.str (stringify (coordinatesData d.lat d.lng)))
    (hloc : r.location.memberD "coordinates" = pointOf [x, y]) :
    (((buildFormData stringify d).lookup "coordinates").isSome = true ↔
        (parseCoordinates env body).has "coordinates" = true) ∧
    ((parseCoordinates env body).has "coordinates" = true ↔
        (preSave r).location.memberD "coordinates" = pointOf [x, y]) ∧
    ((parseCoordinates env (multerBody (buildFormData stringify d))).has "coordinates" = true ↔
        ((buildFormData stringify d).lookup "coordinates").isSome = true) ∧
    (((buildFormData stringify d).lookup "coordinates").isSome = true →
      (buildFormData stringify d).lookup "coordinates"
        = some (FormValue.text (stringify (coordinatesData d.lat d.lng))) ∧
      (parseCoordinates env (multerBody (buildFormData stringify d))).get "coordinates"
        = pointOf [d.lng, d.lat]) := by
  have hform := formData_has_coordinates stringify d
  have hroute := route_keeps_iff_included stringify env d.lat d.lng x y body hlat hlng hne
    hwire hx hy hbody
  have hhook := preSave_kept_iff r (pointOf [x, y]) hloc rfl
  rw [memberD_pointOf, codeAccepts_readsBack d.lat d.lng x y hx hy hlat hlng] at hhook
  refine ⟨?_, ?_, ?_, ?_⟩
  · rw [hform, hroute.1]
  · rw [hroute.1, hhook]
  · rw [hform]
    cases hc : coordinatesIncluded d.lat d.lng
    · have hnone := multerBody_no_coordinates stringify d hc
      have hget : (multerBody (buildFormData stringify d)).get "coordinates" = JSVal.undefined := by
        simp [JSObj.get, hnone]
      rw [parseCoordinates_skip env _ (by intro s hs; rw [hget] at hs; cases hs)]
      simp [JSObj.has_eq_isSome, hnone]
    · have hsent := route_keeps_iff_included stringify env d.lat d.lng x y
        (multerBody (buildFormData stringify d)) hlat hlng hne hwire hx hy
        (multerBody_coordinates stringify d hc)
      rw [hsent.1, hc]
  · intro hsome
    rw [hform] at hsome
    have hsent := route_keeps_iff_included stringify env d.lat d.lng x y
      (multerBody (buildFormData stringify d)) hlat hlng hne hwire hx hy
      (multerBody_coordinates stringify d hsome)
    obtain ⟨hxe, hye⟩ := readsBack_included d.lat d.lng x y hx hy hlat hlng hsome
    refine ⟨formData_coordinates_included stringify d hsome, ?_⟩
    rw [hsent.2 hsome, hxe, hye]

/-- Witness for C3: the sample draft at longitude 77.2090, latitude 28.6139, a
request that carries the text of that point, and a document that holds the
point at `location.coordinates`. The form includes the field, the route keeps
it and the hook keeps it. -/
theorem coordinate_rule_same_on_both_sides_witness :
    ((buildFormData sampleStringify
        (sampleDraft (JSVal.num delhiLat) (JSVal.num delhiLng))).lookup "coordinates").isSome
      = true ∧
    (parseCoordinates sampleEnv (sampleBody (JSVal.str (pointText "77.209,28.6139")))).has
        "coordinates" = true ∧
    (preSave { sampleReport with
        location :=
          JSVal.obj [("coordinates", pointOf [JSVal.num delhiLng, JSVal.num delhiLat])] }
      ).location.memberD "coordinates" = pointOf [JSVal.num delhiLng, JSVal.num delhiLat] ∧
    (parseCoordinates sampleEnv (multerBody (buildFormData sampleStringify
        (sampleDraft (JSVal.num delhiLat) (JSVal.num delhiLng))))).get "coordinates"
      = pointOf [JSVal.num delhiLng, JSVal.num delhiLat] :=
  have h := coordinate_rule_same_on_both_sides sampleStringify sampleEnv
    (sampleDraft (JSVal.num delhiLat) (JSVal.num delhiLng))
    (sampleBody (JSVal.str (pointText "77.209,28.6139")))
    { sampleReport with
      location :=
        JSVal.obj [("coordinates", pointOf [JSVal.num delhiLng, JSVal.num delhiLat])] }
    (JSVal.num delhiLng) (JSVal.num delhiLat)
    rfl rfl (by decide) rfl rfl rfl rfl rfl
  ⟨rfl, h.1.mp rfl, h.2.1.mp (h.1.mp rfl), (h.2.2.2 rfl).2⟩

/-- C3 (as stated) fails. The pair lat = Infinity, lng = 77.2090 passes the
check of the form, which puts the field into the payload; `JSON.stringify`
writes `null` for the infinity, so the array that arrives is `[77.209, null]`:
the route, run on the payload, deletes the field, and the hook deletes that
point at `location.coordinates`. -/
theorem infinite_latitude_passes_the_form_only :
    (buildFormData sampleStringify
        (sampleDraft (JSVal.num (JSNum.inf false)) (JSVal.num delhiLng))).lookup "coordinates"
      = some (FormValue.text (pointText "77.209,null")) ∧
    sampleEnv.jsonParse (pointText "77.209,null")
      = .ok (pointOf [JSVal.num delhiLng, JSVal.null]) ∧
    (parseCoordinates sampleEnv (multerBody (buildFormData sampleStringify
        (sampleDraft (JSVal.num (JSNum.inf false)) (JSVal.num delhiLng))))).has "coordinates"
      = false ∧
    (preSave { sampleReport with
        location := JSVal.obj [("coordinates", pointOf [JSVal.num delhiLng, JSVal.null])] }
      ).location.memberD "coordinates" = JSVal.undefined := by
  refine ⟨by decide, rfl, rfl, rfl⟩

/-! ## Claims on the create request -/

/-- C2 (failing input). A create request whose `coordinates` arrive as an
already structured object `{type: 'Point', coordinates: [0, 0]}` passes the
route unchecked (the value is not a string), the `pre('save')` hook reads
`location.coordinates` and not the top-level path, and the report is created
with the point [0, 0], which fails the acceptance rule. -/
theorem structured_origin_is_persisted :
    (createHandler sampleEnv sampleUser
        (sampleJsonBody (pointOf [JSVal.zero, JSVal.zero]))).created.map Report.coordinates
      = some (pointOf [JSVal.zero, JSVal.zero]) ∧
    (createHandler sampleEnv sampleUser
        (sampleJsonBody (pointOf [JSVal.zero, JSVal.zero]))).response
      = Response.json 201 "success" ∧
    specAccepts (JSVal.arr [JSVal.zero, JSVal.zero]) = false ∧
    codeAccepts (JSVal.arr [JSVal.zero, JSVal.zero]) = false := by
  refine ⟨rfl, rfl, rfl, rfl⟩

/-- C4 (as amended). A draft whose latitude and longitude are 0 gets no
`coordinates` field in the payload; and when the create route receives a
`coordinates` string that parses to a point whose array is [0, 0], the field is
deleted, the body handed to `Report.create` has no `coordinates`, and a report
that is created holds at `coordinates` nothing but the defaults of the schema,
`{type: 'Point', coordinates: []}`: its coordinates array is empty, so the
point [0, 0] is not stored. -/
theorem origin_never_reaches_report (stringify : JSVal → String) (d : Draft)
    (env : ServerEnv) (userId : String) (body : JSObj) (s : String) (parsed x y : JSVal)
    (hlat : d.lat.isZero = true) (hlng : d.lng.isZero = true)
    (hbody : body.get "coordinates" = JSVal.str s) (hs : s ≠ "")
    (hparse : env.jsonParse s = .ok parsed)
    (hpoint : parsed.memberD "coordinates" = JSVal.arr [x, y])
    (hx : x.isZero = true) (_hy : y.isZero = true) :
    (buildFormData stringify d).lookup "coordinates" = none ∧
    (parseCoordinates env body).has "coordinates" = false ∧
    (∀ body3, createBody env userId body = .ok body3 → body3.has "coordinates" = false) ∧
    (∀ r, (createHandler env userId body).created = some r →
      r.coordinates = pointOf [] ∧ r.coordinates.memberD "coordinates" = JSVal.arr []) := by
  have hdrop : ∀ b : JSObj, b.lookup "coordinates" = body.lookup "coordinates" →
      (parseCoordinates env b).has "coordinates" = false := by
    intro b hb
    have hb2 : b.get "coordinates" = JSVal.str s := by
      rw [JSObj.get_eq_of_lookup_eq body b _ hb, hbody]
    rw [parseCoordinates_string env b s hb2 hs, hparse]
    simp [hpoint, codeAccepts_zero_left x y hx, JSObj.has_delete]
  have hbody3 : ∀ body3, createBody env userId body = .ok body3 →
      body3.has "coordinates" = false := by
    intro body3 h3
    obtain ⟨body1, -, h1, h13⟩ := createBody_coordinates env userId body body3 h3
    rw [JSObj.has_eq_of_lookup_eq _ _ _ h13]
    exact hdrop body1 h1
  refine ⟨?_, hdrop body rfl, hbody3, ?_⟩
  · have hinc : coordinatesIncluded d.lat d.lng = false := by
      rw [coordinatesIncluded_eq]
      cases hl : d.lat <;> cases hg : d.lng <;> simp_all [codeAccepts, JSVal.isZero]
    cases hp : d.photo <;> simp [buildFormData, hinc, hp, List.lookup_cons]
  · intro r hr
    obtain ⟨body3, h3, hc⟩ := createHandler_created env userId body r hr
    have hcast := create_coordinates env body3 r hc
    rw [JSObj.get_of_has_false _ _ (hbody3 body3 h3), castCoordinates_undefined] at hcast
    simp only [Except.ok.injEq] at hcast
    rw [← hcast]
    exact ⟨rfl, rfl⟩

/-- Witness for C4: the sample draft at (0, 0) and a request carrying the text
of the point [0, 0]; the report is created, and its coordinates are the
defaults with the empty array. -/
theorem origin_never_reaches_report_witness :
    ((buildFormData sampleStringify (sampleDraft JSVal.zero JSVal.zero)).lookup "coordinates"
        = none ∧
      (parseCoordinates sampleEnv (sampleBody (JSVal.str (pointText "0,0")))).has "coordinates"
        = false) ∧
    (createHandler sampleEnv sampleUser
        (sampleBody (JSVal.str (pointText "0,0")))).created.isSome = true ∧
    ∀ r, (createHandler sampleEnv sampleUser
        (sampleBody (JSVal.str (pointText "0,0")))).created = some r →
      r.coordinates = pointOf [] ∧ r.coordinates.memberD "coordinates" = JSVal.arr [] :=
  have h := origin_never_reaches_report sampleStringify (sampleDraft JSVal.zero JSVal.zero)
    sampleEnv sampleUser (sampleBody (JSVal.str (pointText "0,0"))) (pointText "0,0")
    (pointOf [JSVal.zero, JSVal.zero]) JSVal.zero JSVal.zero
    rfl rfl rfl (by decide) rfl rfl rfl rfl
  ⟨⟨h.1, h.2.1⟩, by decide, h.2.2.2⟩

/-- C4 (as stated) fails. The request carrying the text of the point [0, 0] is
answered with 201, and the report it creates does have a `coordinates` field:
the schema defaults fill the nested path, so it reads
`{type: 'Point', coordinates: []}` and is not absent. -/
theorem origin_request_creates_default_coordinates :
    (createHandler sampleEnv sampleUser (sampleBody (JSVal.str (pointText "0,0")))).response
      = Response.json 201 "success" ∧
    (createHandler sampleEnv sampleUser (sampleBody (JSVal.str (pointText "0,0")))).created.map
        Report.coordinates = some (pointOf []) ∧
    pointOf [] ≠ JSVal.undefined ∧
    (pointOf []).memberD "type" = JSVal.str "Point" ∧
    (pointOf []).truthy = true := by
  refine ⟨rfl, rfl, ?_, rfl, rfl⟩
  intro h
  cases h

/-- C5 (as amended). For every pair of finite numbers accepted by the form's
check, the payload carries the text of `{type: 'Point', coordinates: [lng, lat]}`
with the longitude first, and, `JSON.parse` reading that text back, the route
keeps the object: the body handed to `Report.create`, and a report created from
it, hold exactly the array `[lng, lat]`. -/
theorem accepted_finite_point_reaches_creation (stringify : JSVal → String)
    (env : ServerEnv) (userId : String) (d : Draft) (lat lng : JSNum)
    (hlat : d.lat = JSVal.num lat) (hlng : d.lng = JSVal.num lng)
    (hinc : coordinatesIncluded d.lat d.lng = true)
    (hfinLat : lat.isFinite = true) (hfinLng : lng.isFinite = true)
    (hwire : env.jsonParse (stringify (coordinatesData d.lat d.lng)) = .ok (wirePoint lat lng))
    (hne : stringify (coordinatesData d.lat d.lng) ≠ "") :
    (buildFormData stringify d).lookup "coordinates"
      = some (FormValue.text (stringify
          (JSVal.obj [("type", JSVal.str "Point"),
            ("coordinates", JSVal.arr [JSVal.num lng, JSVal.num lat])]))) ∧
    (∀ body3, createBody env userId (multerBody (buildFormData stringify d)) = .ok body3 →
      (body3.get "coordinates").memberD "coordinates"
        = JSVal.arr [JSVal.num lng, JSVal.num lat]) ∧
    (∀ r, (createHandler env userId (multerBody (buildFormData stringify d))).created = some r →
      r.coordinates.memberD "coordinates" = JSVal.arr [JSVal.num lng, JSVal.num lat]) := by
  have hwp : wirePoint lat lng = coordinatesData d.lat d.lng := by
    simp [wirePoint, coordinatesData, jsonNumber, hfinLat, hfinLng, hlat, hlng]
  have hacc : codeAccepts ((coordinatesData d.lat d.lng).memberD "coordinates") = true := by
    rw [coordinatesIncluded_eq] at hinc
    simpa [coordinatesData, JSVal.memberD, JSObj.get, List.lookup_cons] using hinc
  have hbody3 : ∀ body3,
      createBody env userId (multerBody (buildFormData stringify d)) = .ok body3 →
      body3.get "coordinates" = coordinatesData d.lat d.lng := by
    intro body3 h3
    obtain ⟨body1, -, h1, h13⟩ := createBody_coordinates env userId _ body3 h3
    have hb1 : body1.get "coordinates" = JSVal.str (stringify (coordinatesData d.lat d.lng)) := by
      rw [JSObj.get_eq_of_lookup_eq _ body1 _ h1, multerBody_coordinates stringify d hinc]
    rw [JSObj.get_eq_of_lookup_eq _ _ _ h13, parseCoordinates_string env body1 _ hb1 hne,
      hwire, hwp]
    simp [hacc, JSObj.get_set]
  have hmem : (coordinatesData d.lat d.lng).memberD "coordinates"
      = JSVal.arr [JSVal.num lng, JSVal.num lat] := by
    simp [coordinatesData, JSVal.memberD, JSObj.get, List.lookup_cons, hlat, hlng]
  refine ⟨?_, ?_, ?_⟩
  · have := (formData_coordinates_included stringify d hinc)
    simpa [coordinatesData, hlat, hlng] using this
  · intro body3 h3
    rw [hbody3 body3 h3, hmem]
  · intro r hr
    obtain ⟨body3, h3, hc⟩ := createHandler_created env userId _ r hr
    have hcast := create_coordinates env body3 r hc
    have hnan : lat.isNaN = false ∧ lng.isNaN = false := by
      cases lat <;> cases lng <;> simp_all [JSNum.isFinite, JSNum.isNaN]
    have hpoint : coordinatesData d.lat d.lng = pointOf [JSVal.num lng, JSVal.num lat] := by
      rw [hlat, hlng]
      rfl
    rw [hbody3 body3 h3, hpoint, castCoordinates_point env lng lat hnan.2 hnan.1] at hcast
    simp only [Except.ok.injEq] at hcast
    rw [← hcast]
    rfl

/-- Witness for C5: the sample draft at longitude 77.2090, latitude 28.6139. -/
theorem accepted_finite_point_reaches_creation_witness :
    (createHandler sampleEnv sampleUser (multerBody (buildFormData sampleStringify
        (sampleDraft (JSVal.num delhiLat) (JSVal.num delhiLng))))).created.isSome = true ∧
    ∀ r, (createHandler sampleEnv sampleUser (multerBody (buildFormData sampleStringify
        (sampleDraft (JSVal.num delhiLat) (JSVal.num delhiLng))))).created = some r →
      r.coordinates.memberD "coordinates" = JSVal.arr [JSVal.num delhiLng, JSVal.num delhiLat] :=
  ⟨by decide,
   (accepted_finite_point_reaches_creation sampleStringify sampleEnv sampleUser
      (sampleDraft (JSVal.num delhiLat) (JSVal.num delhiLng)) delhiLat delhiLng
      rfl rfl rfl rfl rfl rfl (by decide)).2.2⟩

/-- C5 (as stated) fails. The pair lat = Infinity, lng = 77.2090 passes the
form's check; `JSON.stringify` writes `null` for the infinity, the route reads
`[77.209, null]`, deletes the field, and the report is created without the
point: its coordinates array is the empty default. -/
theorem infinite_latitude_is_dropped :
    coordinatesIncluded (JSVal.num (JSNum.inf false)) (JSVal.num delhiLng) = true ∧
    sampleStringify (coordinatesData (JSVal.num (JSNum.inf false)) (JSVal.num delhiLng))
      = pointText "77.209,null" ∧
    sampleEnv.jsonParse (pointText "77.209,null") = .ok (wirePoint (JSNum.inf false) delhiLng) ∧
    (createHandler sampleEnv sampleUser (multerBody (buildFormData sampleStringify
        (sampleDraft (JSVal.num (JSNum.inf false)) (JSVal.num delhiLng))))).created.map
      Report.coordinates = some (pointOf []) := by
  refine ⟨rfl, by decide, rfl, rfl⟩

/-- C6 (as amended). For every non-empty string supplied as `coordinates`, lines
73-94 end with a body (they neither throw nor answer): either the string
parses to a value whose `coordinates` member passes the check and the field
holds that value, or the field is absent. In particular it is absent when the
string is not valid JSON and when it parses to `null`. -/
theorem coordinates_string_kept_or_absent (env : ServerEnv) (body : JSObj) (s : String)
    (hbody : body.get "coordinates" = JSVal.str s) (hs : s ≠ "") :
    ((∃ parsed, env.jsonParse s = .ok parsed ∧
        codeAccepts (parsed.memberD "coordinates") = true ∧
        (parseCoordinates env body).get "coordinates" = parsed) ∨
      (parseCoordinates env body).has "coordinates" = false) ∧
    (∀ e, env.jsonParse s = .error e → (parseCoordinates env body).has "coordinates" = false) ∧
    (env.jsonParse s = .ok JSVal.null → (parseCoordinates env body).has "coordinates" = false) := by
  rw [parseCoordinates_string env body s hbody hs]
  refine ⟨?_, ?_, ?_⟩
  · cases hp : env.jsonParse s with
    | error e => exact Or.inr (by simp [JSObj.has_delete])
    | ok parsed =>
      cases hc : codeAccepts (parsed.memberD "coordinates")
      · exact Or.inr (by simp [hc, JSObj.has_delete])
      · exact Or.inl ⟨parsed, rfl, hc, by simp [hc, JSObj.get_set]⟩
  · intro e he
    simp [he, JSObj.has_delete]
  · intro hn
    simp [hn, JSVal.memberD, codeAccepts, JSObj.has_delete]

/-- Witness for C6: a text that is not JSON, and the text `null`. -/
theorem coordinates_string_kept_or_absent_witness :
    (parseCoordinates sampleEnv (sampleBody (JSVal.str "12.9,77.5"))).has "coordinates" = false ∧
    (parseCoordinates sampleEnv (sampleBody (JSVal.str "null"))).has "coordinates" = false :=
  ⟨(coordinates_string_kept_or_absent sampleEnv (sampleBody (JSVal.str "12.9,77.5")) "12.9,77.5"
      rfl (by decide)).2.1 JSError.syntaxError rfl,
   (coordinates_string_kept_or_absent sampleEnv (sampleBody (JSVal.str "null")) "null"
      rfl (by decide)).2.2 rfl⟩

/-- C6 (as stated) fails at the empty string: the guard of line 74 is false for
it, the block is skipped, and the body handed to `Report.create` still has a
`coordinates` field, holding the empty string and no parsed point. -/
theorem empty_coordinates_string_is_left :
    (parseCoordinates sampleEnv (sampleBody (JSVal.str ""))).has "coordinates" = true ∧
    (parseCoordinates sampleEnv (sampleBody (JSVal.str ""))).get "coordinates" = JSVal.str "" ∧
    (createBody sampleEnv sampleUser (sampleBody (JSVal.str ""))).toOption.map
        (fun b => b.lookup "coordinates") = some (some (JSVal.str "")) := by
  refine ⟨rfl, rfl, rfl⟩


/-! ## The engagement methods -/

theorem preSave_idem (r : Report) : preSave (preSave r) = preSave r := by
  cases ht : (r.location.memberD "coordinates").truthy
  · rw [preSave_falsy r ht, preSave_falsy r ht]
  · rw [preSave_truthy r ht]
    cases hc : codeAccepts ((r.location.memberD "coordinates").memberD "coordinates")
    · simp only [Bool.false_eq_true, if_false]
      apply preSave_falsy
      simp [memberD_deleteMember, JSVal.truthy]
    · simp only [if_true]
      rw [preSave_truthy r ht]
      simp [hc]

theorem sameUser_some (u v : ObjectId) :
    sameUser u { user := some v } = .ok (decide (v = u)) := by
  obtain ⟨a⟩ := u
  obtain ⟨b⟩ := v
  by_cases h : b = a <;> simp [sameUser, ObjectId.toString, h]

theorem someM_sameUser_false_iff (u : ObjectId) (l : List UserEntry) :
    someM (sameUser u) l = .ok false ↔
      allHaveUser l ∧ ({ user := some u } : UserEntry) ∉ l := by
  induction l with
  | nil => simp [someM, allHaveUser]
  | cons e rest ih =>
    obtain ⟨user⟩ := e
    cases user with
    | none => simp [someM, sameUser, allHaveUser]
    | some v =>
      by_cases hv : v = u
      · simp [someM, sameUser_some, hv]
      · have hne : ¬ u = v := fun h => hv h.symm
        simp only [someM, sameUser_some, hv, decide_False, ih]
        simp [allHaveUser, hne]

theorem someM_sameUser_true_iff (u : ObjectId) (l : List UserEntry) :
    someM (sameUser u) l = .ok true → ({ user := some u } : UserEntry) ∈ l := by
  induction l with
  | nil => simp [someM]
  | cons e rest ih =>
    obtain ⟨user⟩ := e
    cases user with
    | none => simp [someM, sameUser]
    | some v =>
      by_cases hv : v = u
      · simp [hv]
      · simp only [someM, sameUser_some, hv, decide_False]
        intro h
        exact List.mem_cons_of_mem _ (ih h)

theorem someM_sameUser_of_allHaveUser (u : ObjectId) (l : List UserEntry)
    (h : allHaveUser l) :
    someM (sameUser u) l = .ok (decide (({ user := some u } : UserEntry) ∈ l)) := by
  induction l with
  | nil => simp [someM]
  | cons e rest ih =>
    obtain ⟨user⟩ := e
    have hrest : allHaveUser rest := fun x hx => h x (List.mem_cons_of_mem _ hx)
    cases user with
    | none =>
      have := h ⟨none⟩ (List.mem_cons_self _ _)
      simp at this
    | some v =>
      by_cases hv : v = u
      · simp [someM, sameUser_some, hv]
      · have hne : ¬ u = v := fun h => hv h.symm
        simp [someM, sameUser_some, hv, ih hrest, hne]

theorem someM_sameUser_append_self (u : ObjectId) (l : List UserEntry)
    (h : someM (sameUser u) l = .ok false) :
    someM (sameUser u) (l ++ [{ user := some u }]) = .ok true := by
  have hl := (someM_sameUser_false_iff u l).1 h
  have hall : allHaveUser (l ++ [{ user := some u }]) := by
    intro e he
    rcases List.mem_append.1 he with h1 | h1
    · exact hl.1 e h1
    · simp at h1; simp [h1]
  rw [someM_sameUser_of_allHaveUser u _ hall]
  simp

theorem filterM_otherUser_of_allHaveUser (u : ObjectId) (l : List UserEntry)
    (h : allHaveUser l) :
    filterM (otherUser u) l = .ok (l.filter (fun e => decide (e.user ≠ some u))) := by
  induction l with
  | nil => simp [filterM]
  | cons e rest ih =>
    obtain ⟨user⟩ := e
    have hrest : allHaveUser rest := fun x hx => h x (List.mem_cons_of_mem _ hx)
    cases user with
    | none =>
      have := h ⟨none⟩ (List.mem_cons_self _ _)
      simp at this
    | some v =>
      by_cases hv : v = u
      · simp [filterM, otherUser, sameUser_some, hv, ih hrest, List.filter_cons]
      · simp [filterM, otherUser, sameUser_some, hv, ih hrest, List.filter_cons]

theorem filterM_otherUser_ok (u : ObjectId) (l kept : List UserEntry)
    (h : filterM (otherUser u) l = .ok kept) : allHaveUser l := by
  induction l generalizing kept with
  | nil => simp [allHaveUser]
  | cons e rest ih =>
    obtain ⟨user⟩ := e
    cases user with
    | none => simp [filterM, otherUser, sameUser] at h
    | some v =>
      simp only [filterM, otherUser, sameUser_some] at h
      cases hr : filterM (otherUser u) rest with
      | error e => simp [hr] at h
      | ok k =>
        intro x hx
        rcases List.mem_cons.1 hx with h1 | h1
        · simp [h1]
        · exact ih k hr x h1

theorem filterM_otherUser_error (u : ObjectId) (l : List UserEntry)
    (h : ¬ allHaveUser l) : ∃ e, filterM (otherUser u) l = .error e := by
  cases hf : filterM (otherUser u) l with
  | error e => exact ⟨e, rfl⟩
  | ok kept => exact absurd (filterM_otherUser_ok u l kept hf) h

theorem someM_sameUser_error (u : ObjectId) (l : List UserEntry)
    (hall : ¬ allHaveUser l) (hmem : ({ user := some u } : UserEntry) ∉ l) :
    ∃ e, someM (sameUser u) l = .error e := by
  cases hs : someM (sameUser u) l with
  | error e => exact ⟨e, rfl⟩
  | ok b =>
    cases b
    · exact absurd ((someM_sameUser_false_iff u l).1 hs).1 hall
    · exact absurd (someM_sameUser_true_iff u l hs) hmem

/-- What `addLike` returns when every entry of `likes` has its user. -/
theorem addLike_of_allHaveUser (r : Report) (u : ObjectId) (h : allHaveUser r.likes) :
    r.addLike u = .ok (preSave
      (if r.likedBy u then r else { r with likes := r.likes ++ [{ user := some u }] })) := by
  unfold Report.addLike
  rw [someM_sameUser_of_allHaveUser u r.likes h]
  by_cases hm : ({ user := some u } : UserEntry) ∈ r.likes
  · simp [hm, save, Report.likedBy]
  · simp [hm, save, Report.likedBy]

/-- What `removeLike` returns when every entry of `likes` has its user. -/
theorem removeLike_of_allHaveUser (r : Report) (u : ObjectId) (h : allHaveUser r.likes) :
    r.removeLike u = .ok (preSave
      { r with likes := r.likes.filter (fun e => decide (e.user ≠ some u)) }) := by
  unfold Report.removeLike
  rw [filterM_otherUser_of_allHaveUser u r.likes h]
  rfl


theorem addLike_ok_again (r r1 : Report) (u : ObjectId) (h : r.addLike u = .ok r1) :
    r1.addLike u = .ok r1 := by
  unfold Report.addLike at h
  cases hs : someM (sameUser u) r.likes with
  | error e => simp [hs] at h
  | ok b =>
    simp only [hs, save, Except.ok.injEq] at h
    have hlikes : someM (sameUser u) r1.likes = .ok true := by
      rw [← h, preSave_likes]
      cases b
      · simpa using someM_sameUser_append_self u r.likes hs
      · simpa using hs
    unfold Report.addLike
    rw [hlikes]
    simp only [Bool.not_true, Bool.false_eq_true, if_false, save]
    rw [← h, preSave_idem]

theorem likes_length_eq_likers (r : Report) (h : allHaveUser r.likes) :
    r.likes.length = r.likers.length := by
  unfold Report.likers
  generalize r.likes = l at h
  induction l with
  | nil => rfl
  | cons e rest ih =>
    obtain ⟨user⟩ := e
    have hrest : allHaveUser rest := fun x hx => h x (List.mem_cons_of_mem _ hx)
    cases user with
    | none =>
      have := h ⟨none⟩ (List.mem_cons_self _ _)
      simp at this
    | some v => simp [List.filterMap_cons, ih hrest]

theorem mem_likers_iff (r : Report) (u : ObjectId) : u ∈ r.likers ↔ r.likedBy u := by
  unfold Report.likers Report.likedBy
  simp only [List.mem_filterMap]
  constructor
  · rintro ⟨⟨user⟩, hmem, hu⟩
    simp only at hu
    subst hu
    exact hmem
  · intro h
    exact ⟨_, h, rfl⟩

/-- The state of `likes` after one `addLike` on a report whose entries all have
their user and are pairwise distinct. -/
theorem addLike_step (r : Report) (u : ObjectId)
    (hall : allHaveUser r.likes) (hnd : r.likers.Nodup) :
    allHaveUser (stored r (r.addLike u)).likes ∧
    (stored r (r.addLike u)).likers.Nodup ∧
    (stored r (r.addLike u)).likers.toFinset = insert u r.likers.toFinset := by
  rw [addLike_of_allHaveUser r u hall]
  simp only [stored]
  by_cases hm : r.likedBy u
  · have hu : u ∈ r.likers := (mem_likers_iff r u).2 hm
    simp only [hm, if_true, Report.likers, preSave_likes]
    refine ⟨hall, hnd, ?_⟩
    rw [Finset.insert_eq_of_mem]
    simpa [Report.likers] using hu
  · have hu : u ∉ r.likers := fun h => hm ((mem_likers_iff r u).1 h)
    simp only [hm, if_false, Report.likers, preSave_likes]
    refine ⟨?_, ?_, ?_⟩
    · intro e he
      rcases List.mem_append.1 he with h1 | h1
      · exact hall e h1
      · simp at h1; simp [h1]
    · simp only [List.filterMap_append, List.filterMap_cons, List.filterMap_nil]
      refine List.Nodup.append hnd (List.nodup_singleton u) ?_
      intro x hx hx2
      rw [List.mem_singleton.1 hx2] at hx
      exact hu hx
    · ext x
      simp only [List.filterMap_append, List.filterMap_cons, List.filterMap_nil,
        List.toFinset_append, Finset.mem_union, List.mem_toFinset, List.mem_singleton,
        Finset.mem_insert]
      tauto

theorem runAll_addLike (us : List ObjectId) : ∀ r : Report,
    allHaveUser r.likes → r.likers.Nodup →
    allHaveUser (runAll (us.map EngagementOp.addLike) r).likes ∧
    (runAll (us.map EngagementOp.addLike) r).likers.Nodup ∧
    (runAll (us.map EngagementOp.addLike) r).likers.toFinset
      = r.likers.toFinset ∪ us.toFinset := by
  induction us with
  | nil =>
    intro r hall hnd
    simp [runAll, hall, hnd]
  | cons u rest ih =>
    intro r hall hnd
    obtain ⟨h1, h2, h3⟩ := addLike_step r u hall hnd
    have := ih (stored r (r.addLike u)) h1 h2
    simp only [runAll, List.map_cons, List.foldl_cons, EngagementOp.run] at this ⊢
    refine ⟨this.1, this.2.1, ?_⟩
    rw [this.2.2, h3]
    ext x
    simp only [Finset.mem_union, Finset.mem_insert, List.mem_toFinset, List.toFinset_cons]
    tauto

/-! ## Claims on likes -/

/-- C7. For every report and every user, a second `addLike` by the same user
returns the very document the first one saved, so the stored report after two
calls is the stored report after one; and the call does succeed whenever every
entry of `likes` carries its user. -/
theorem addLike_twice_same_as_once (r : Report) (u : ObjectId) :
    (∀ r1, r.addLike u = .ok r1 → r1.addLike u = .ok r1) ∧
    runAll [EngagementOp.addLike u, EngagementOp.addLike u] r
      = runAll [EngagementOp.addLike u] r ∧
    (allHaveUser r.likes → ∃ r1, r.addLike u = .ok r1 ∧ r1.likedBy u) := by
  refine ⟨fun r1 h => addLike_ok_again r r1 u h, ?_, ?_⟩
  · simp only [runAll, List.foldl_cons, List.foldl_nil, EngagementOp.run]
    cases h : r.addLike u with
    | error e => simp [stored, h]
    | ok r1 => simp [stored, addLike_ok_again r r1 u h]
  · intro hall
    refine ⟨_, addLike_of_allHaveUser r u hall, ?_⟩
    unfold Report.likedBy
    rw [preSave_likes]
    by_cases hm : ({ user := some u } : UserEntry) ∈ r.likes
    · rw [if_pos hm]
      exact hm
    · rw [if_neg hm]
      simp

/-- C8. Starting from a report with no likes, after any sequence of `addLike`
calls `likeCount` is the number of distinct users of the sequence; two distinct
users give 2 and one user liking twice gives 1. -/
theorem likeCount_counts_distinct_users (r : Report) (us : List ObjectId)
    (hempty : r.likes = []) :
    (runAll (us.map EngagementOp.addLike) r).likeCount = us.dedup.length ∧
    (∀ a b, a ≠ b →
      (runAll [EngagementOp.addLike a, EngagementOp.addLike b] r).likeCount = 2) ∧
    (∀ a, (runAll [EngagementOp.addLike a, EngagementOp.addLike a] r).likeCount = 1) := by
  have hall : allHaveUser r.likes := by simp [hempty, allHaveUser]
  have hnd : r.likers.Nodup := by simp [Report.likers, hempty]
  have key : ∀ vs : List ObjectId,
      (runAll (vs.map EngagementOp.addLike) r).likeCount = vs.dedup.length := by
    intro vs
    obtain ⟨h1, h2, h3⟩ := runAll_addLike vs r hall hnd
    have hr : r.likers = [] := by simp [Report.likers, hempty]
    rw [Report.likeCount, likes_length_eq_likers _ h1, ← List.toFinset_card_of_nodup h2, h3,
      hr, List.toFinset_nil, Finset.empty_union, List.card_toFinset]
  refine ⟨key us, ?_, ?_⟩
  · intro a b hab
    have := key [a, b]
    simpa [List.dedup_cons_of_not_mem, hab] using this
  · intro a
    have := key [a, a]
    simpa using this

/-- Witness for C8: two users, the first of them liking twice. -/
theorem likeCount_counts_distinct_users_witness :
    (runAll ([{ hex := "a" }, { hex := "b" }, { hex := "a" }].map EngagementOp.addLike)
      sampleReport).likeCount = 2 :=
  (likeCount_counts_distinct_users sampleReport [{ hex := "a" }, { hex := "b" }, { hex := "a" }]
    rfl).1.trans (by decide)


theorem filter_other_likers_nodup (l : List UserEntry) (u : ObjectId)
    (h : (l.filterMap UserEntry.user).Nodup) :
    ((l.filter (fun e => decide (e.user ≠ some u))).filterMap UserEntry.user).Nodup :=
  List.Nodup.sublist (List.Sublist.filterMap _ (List.filter_sublist l)) h

theorem run_ok_likesUnique (op : EngagementOp) (r r1 : Report) (h : r.likesUnique)
    (hrun : op.run r = .ok r1) : r1.likesUnique := by
  unfold Report.likesUnique at h ⊢
  cases op with
  | addLike u =>
    simp only [EngagementOp.run, Report.addLike] at hrun
    cases hs : someM (sameUser u) r.likes with
    | error e => simp [hs] at hrun
    | ok b =>
      simp only [hs, save, Except.ok.injEq] at hrun
      rw [← hrun]
      unfold Report.likers
      rw [preSave_likes]
      cases b
      · have hno := ((someM_sameUser_false_iff u r.likes).1 hs).2
        have hu : u ∉ r.likers := fun hm => hno ((mem_likers_iff r u).1 hm)
        simp only [Bool.not_false, if_true, List.filterMap_append, List.filterMap_cons,
          List.filterMap_nil]
        refine List.Nodup.append h (List.nodup_singleton u) ?_
        intro x hx hx2
        rw [List.mem_singleton.1 hx2] at hx
        exact hu hx
      · simpa using h
  | removeLike u =>
    simp only [EngagementOp.run, Report.removeLike] at hrun
    cases hf : filterM (otherUser u) r.likes with
    | error e => simp [hf] at hrun
    | ok kept =>
      have hall := filterM_otherUser_ok u r.likes kept hf
      rw [filterM_otherUser_of_allHaveUser u r.likes hall] at hf
      simp only [Except.ok.injEq] at hf
      simp only [filterM_otherUser_of_allHaveUser u r.likes hall, save, Except.ok.injEq] at hrun
      rw [← hrun]
      unfold Report.likers
      rw [preSave_likes]
      exact filter_other_likers_nodup r.likes u h
  | addComment u text =>
    simp only [EngagementOp.run, Report.addComment] at hrun
    split at hrun
    · simp only [save, Except.ok.injEq] at hrun
      rw [← hrun]
      unfold Report.likers
      rw [preSave_likes]
      exact h
    · simp at hrun
  | vote u voteType =>
    simp only [EngagementOp.run, Report.vote] at hrun
    cases hup : filterM (otherUser u) r.votes.up with
    | error e => simp [hup] at hrun
    | ok up =>
      cases hdown : filterM (otherUser u) r.votes.down with
      | error e => simp [hup, hdown] at hrun
      | ok down =>
        simp only [hup, hdown, save, Except.ok.injEq] at hrun
        rw [← hrun]
        unfold Report.likers
        rw [preSave_likes]
        exact h

/-- C9. If `likes` holds at most one entry per user, it still does after any of
`addLike`, `removeLike`, `addComment` and `vote`, for any user and arguments:
in the document the call saves, and in the stored report when the call fails. -/
theorem likes_stay_unique (op : EngagementOp) (r : Report) (h : r.likesUnique) :
    (∀ r1, op.run r = .ok r1 → r1.likesUnique) ∧ (stored r (op.run r)).likesUnique := by
  refine ⟨fun r1 hrun => run_ok_likesUnique op r r1 h hrun, ?_⟩
  cases hrun : op.run r with
  | error e => exact h
  | ok r1 => exact run_ok_likesUnique op r r1 h hrun

/-- Witness for C9: a second like on a report that one user has liked. -/
theorem likes_stay_unique_witness :
    (stored { sampleReport with likes := [{ user := some { hex := "a" } }] }
      ((EngagementOp.addLike { hex := "b" }).run
        { sampleReport with likes := [{ user := some { hex := "a" } }] })).likesUnique ∧
    (stored { sampleReport with likes := [{ user := some { hex := "a" } }] }
      ((EngagementOp.addLike { hex := "b" }).run
        { sampleReport with likes := [{ user := some { hex := "a" } }] })).likeCount = 2 :=
  ⟨(likes_stay_unique (EngagementOp.addLike { hex := "b" })
      { sampleReport with likes := [{ user := some { hex := "a" } }] } (by decide)).2,
   by decide⟩

theorem filter_other_append_self (l : List UserEntry) (u : ObjectId)
    (hno : ({ user := some u } : UserEntry) ∉ l) :
    (l ++ [({ user := some u } : UserEntry)]).filter (fun e => decide (e.user ≠ some u))
      = l := by
  rw [List.filter_append]
  have h1 : l.filter (fun e => decide (e.user ≠ some u)) = l := by
    rw [List.filter_eq_self]
    intro e he
    obtain ⟨user⟩ := e
    simp only [ne_eq, decide_not, Bool.not_eq_true', decide_eq_false_iff_not]
    intro hu
    rw [hu] at he
    exact hno he
  rw [h1]
  simp

/-- C10. For every report and every user without an entry in `likes`,
`addLike(user)` followed by `removeLike(user)` leaves `likes` exactly as it was,
entry for entry, and the user without a like; when every entry of `likes`
carries its user both calls succeed and the like is there in between. -/
theorem removeLike_undoes_addLike (r : Report) (u : ObjectId) (hno : ¬ r.likedBy u) :
    (runAll [EngagementOp.addLike u, EngagementOp.removeLike u] r).likes = r.likes ∧
    ¬ (runAll [EngagementOp.addLike u, EngagementOp.removeLike u] r).likedBy u ∧
    (allHaveUser r.likes →
      ∃ r1 r2, r.addLike u = .ok r1 ∧ r1.likedBy u ∧ r1.removeLike u = .ok r2 ∧
        r2.likes = r.likes) := by
  have hsucc : allHaveUser r.likes →
      ∃ r1 r2, r.addLike u = .ok r1 ∧ r1.likedBy u ∧ r1.removeLike u = .ok r2 ∧
        r2.likes = r.likes := by
    intro hall
    have h1 := addLike_of_allHaveUser r u hall
    rw [if_neg hno] at h1
    have hl1 : (preSave { r with likes := r.likes ++ [{ user := some u }] }).likes
        = r.likes ++ [{ user := some u }] := by rw [preSave_likes]
    have hall1 : allHaveUser
        (preSave { r with likes := r.likes ++ [{ user := some u }] }).likes := by
      rw [hl1]
      intro e he
      rcases List.mem_append.1 he with h | h
      · exact hall e h
      · simp at h; simp [h]
    refine ⟨_, _, h1, ?_, removeLike_of_allHaveUser _ u hall1, ?_⟩
    · unfold Report.likedBy
      rw [hl1]
      simp
    · rw [preSave_likes]
      simp only [hl1]
      exact filter_other_append_self r.likes u hno

  refine ⟨?_, ?_, hsucc⟩
  · by_cases hall : allHaveUser r.likes
    · obtain ⟨r1, r2, h1, -, h2, h3⟩ := hsucc hall
      simp [runAll, EngagementOp.run, stored, h1, h2, h3]
    · obtain ⟨e1, h1⟩ := someM_sameUser_error u r.likes hall hno
      obtain ⟨e2, h2⟩ := filterM_otherUser_error u r.likes hall
      simp [runAll, EngagementOp.run, stored, Report.addLike, Report.removeLike, h1, h2]
  · by_cases hall : allHaveUser r.likes
    · obtain ⟨r1, r2, h1, -, h2, h3⟩ := hsucc hall
      simp only [runAll, List.foldl_cons, List.foldl_nil, EngagementOp.run, stored, h1, h2]
      unfold Report.likedBy at hno ⊢
      rw [h3]
      exact hno
    · obtain ⟨e1, h1⟩ := someM_sameUser_error u r.likes hall hno
      obtain ⟨e2, h2⟩ := filterM_otherUser_error u r.likes hall
      simp only [runAll, List.foldl_cons, List.foldl_nil, EngagementOp.run, stored,
        Report.addLike, Report.removeLike, h1, h2]
      exact hno

/-- Witness for C10: user `b` likes and unlikes a report liked by user `a`. -/
theorem removeLike_undoes_addLike_witness :
    (runAll [EngagementOp.addLike { hex := "b" }, EngagementOp.removeLike { hex := "b" }]
      { sampleReport with likes := [{ user := some { hex := "a" } }] }).likes
      = [{ user := some { hex := "a" } }] :=
  (removeLike_undoes_addLike { sampleReport with likes := [{ user := some { hex := "a" } }] }
    { hex := "b" } (by decide)).1


/-! ## Votes -/

/-- What `vote` returns when every entry of both vote sets has its user. -/
theorem vote_of_allHaveUser (r : Report) (u : ObjectId) (voteType : JSVal)
    (hup : allHaveUser r.votes.up) (hdown : allHaveUser r.votes.down) :
    r.vote u voteType = .ok (preSave { r with votes :=
      match voteType with
      | JSVal.str "up" =>
        { up := r.votes.up.filter (fun e => decide (e.user ≠ some u)) ++ [{ user := some u }],
          down := r.votes.down.filter (fun e => decide (e.user ≠ some u)) }
      | JSVal.str "down" =>
        { up := r.votes.up.filter (fun e => decide (e.user ≠ some u)),
          down := r.votes.down.filter (fun e => decide (e.user ≠ some u)) ++
            [{ user := some u }] }
      | _ =>
        { up := r.votes.up.filter (fun e => decide (e.user ≠ some u)),
          down := r.votes.down.filter (fun e => decide (e.user ≠ some u)) } }) := by
  unfold Report.vote
  rw [filterM_otherUser_of_allHaveUser u r.votes.up hup,
    filterM_otherUser_of_allHaveUser u r.votes.down hdown]
  rfl

/-- A `vote` that returns has found a user in every entry of both sets. -/
theorem vote_ok_allHaveUser (r r1 : Report) (u : ObjectId) (voteType : JSVal)
    (h : r.vote u voteType = .ok r1) :
    allHaveUser r.votes.up ∧ allHaveUser r.votes.down := by
  unfold Report.vote at h
  cases hup : filterM (otherUser u) r.votes.up with
  | error e => simp [hup] at h
  | ok up =>
    cases hdown : filterM (otherUser u) r.votes.down with
    | error e => simp [hup, hdown] at h
    | ok down =>
      exact ⟨filterM_otherUser_ok u _ up hup, filterM_otherUser_ok u _ down hdown⟩

theorem vote_up_eq (r : Report) (u : ObjectId)
    (hup : allHaveUser r.votes.up) (hdown : allHaveUser r.votes.down) :
    r.vote u (JSVal.str "up") = .ok (preSave { r with votes :=
        { up := r.votes.up.filter (fun e => decide (e.user ≠ some u)) ++ [{ user := some u }],
          down := r.votes.down.filter (fun e => decide (e.user ≠ some u)) } }) := by
  rw [vote_of_allHaveUser r u _ hup hdown]
  rfl

theorem vote_down_eq (r : Report) (u : ObjectId)
    (hup : allHaveUser r.votes.up) (hdown : allHaveUser r.votes.down) :
    r.vote u (JSVal.str "down") = .ok (preSave { r with votes :=
        { up := r.votes.up.filter (fun e => decide (e.user ≠ some u)),
          down := r.votes.down.filter (fun e => decide (e.user ≠ some u)) ++
            [{ user := some u }] } }) := by
  rw [vote_of_allHaveUser r u _ hup hdown]
  rfl


theorem allHaveUser_filter (l : List UserEntry) (p : UserEntry → Bool)
    (h : allHaveUser l) : allHaveUser (l.filter p) :=
  fun e he => h e (List.mem_of_mem_filter he)

theorem allHaveUser_append_some (l : List UserEntry) (u : ObjectId)
    (h : allHaveUser l) : allHaveUser (l ++ [{ user := some u }]) := by
  intro e he
  rcases List.mem_append.1 he with h1 | h1
  · exact h e h1
  · simp at h1; simp [h1]

theorem filter_other_idem (l : List UserEntry) (u : ObjectId) :
    (l.filter (fun e => decide (e.user ≠ some u))).filter (fun e => decide (e.user ≠ some u))
      = l.filter (fun e => decide (e.user ≠ some u)) := by
  rw [List.filter_filter]
  simp

theorem filter_other_append_idem (l : List UserEntry) (u : ObjectId) :
    (l.filter (fun e => decide (e.user ≠ some u)) ++
        [({ user := some u } : UserEntry)]).filter (fun e => decide (e.user ≠ some u))
      = l.filter (fun e => decide (e.user ≠ some u)) := by
  rw [List.filter_append, filter_other_idem]
  simp

theorem count_filter_other (l : List UserEntry) (u : ObjectId) :
    (l.filter (fun e => decide (e.user ≠ some u))).count { user := some u } = 0 := by
  rw [List.count_eq_zero]
  intro hmem
  have := List.of_mem_filter hmem
  simp at this

theorem count_filter_other_append (l : List UserEntry) (u : ObjectId) :
    (l.filter (fun e => decide (e.user ≠ some u)) ++
        [({ user := some u } : UserEntry)]).count { user := some u } = 1 := by
  rw [List.count_append, count_filter_other]
  simp

/-- A second `removeLike` by the same user returns the document the first one
saved. -/
theorem removeLike_ok_again (r r1 : Report) (u : ObjectId) (h : r.removeLike u = .ok r1) :
    r1.removeLike u = .ok r1 := by
  have hall : allHaveUser r.likes := by
    unfold Report.removeLike at h
    cases hf : filterM (otherUser u) r.likes with
    | error e => simp [hf] at h
    | ok kept => exact filterM_otherUser_ok u _ kept hf
  rw [removeLike_of_allHaveUser r u hall] at h
  simp only [Except.ok.injEq] at h
  have hl : r1.likes = r.likes.filter (fun e => decide (e.user ≠ some u)) := by
    rw [← h, preSave_likes]
  have hall1 : allHaveUser r1.likes := by
    rw [hl]
    exact allHaveUser_filter _ _ hall
  rw [removeLike_of_allHaveUser r1 u hall1]
  have : ({ r1 with likes := r1.likes.filter (fun e => decide (e.user ≠ some u)) } : Report)
      = r1 := by
    rw [hl, filter_other_idem, ← hl]
  rw [this, ← h, preSave_idem]

/-- The stored likes after two `removeLike` calls are those after one. -/
theorem removeLike_twice_likes (r : Report) (u : ObjectId) :
    (runAll [EngagementOp.removeLike u, EngagementOp.removeLike u] r).likes
      = (runAll [EngagementOp.removeLike u] r).likes := by
  simp only [runAll, List.foldl_cons, List.foldl_nil, EngagementOp.run]
  cases h : r.removeLike u with
  | error e => simp [stored, h]
  | ok r1 => simp [stored, removeLike_ok_again r r1 u h]

/-- The stored likes are unchanged by a `removeLike` of a user without an
entry; the call succeeds when every entry of `likes` has its user. -/
theorem removeLike_absent (r : Report) (u : ObjectId) (hno : ¬ r.likedBy u) :
    (stored r (r.removeLike u)).likes = r.likes ∧
    (allHaveUser r.likes → ∃ r1, r.removeLike u = .ok r1 ∧ r1.likes = r.likes) := by
  have hfilter : r.likes.filter (fun e => decide (e.user ≠ some u)) = r.likes := by
    rw [List.filter_eq_self]
    intro e he
    obtain ⟨user⟩ := e
    simp only [ne_eq, decide_not, Bool.not_eq_true', decide_eq_false_iff_not]
    intro hu
    rw [hu] at he
    exact hno he
  have hsucc : allHaveUser r.likes → ∃ r1, r.removeLike u = .ok r1 ∧ r1.likes = r.likes := by
    intro hall
    refine ⟨_, removeLike_of_allHaveUser r u hall, ?_⟩
    rw [preSave_likes]
    exact hfilter
  refine ⟨?_, hsucc⟩
  by_cases hall : allHaveUser r.likes
  · obtain ⟨r1, h1, h2⟩ := hsucc hall
    simp [stored, h1, h2]
  · obtain ⟨e, he⟩ := filterM_otherUser_error u r.likes hall
    simp [stored, Report.removeLike, he]

/-! ## Claims on removeLike and vote -/

/-- C11 (failing input). On a report whose `likes` holds an entry without a
user reference, which the schema allows (line 67), `removeLike` for a user
without a like entry throws a `TypeError` (the callback reads
`like.user.toString()`), although the claim says it does not fail. -/
theorem removeLike_fails_on_entry_without_user :
    ¬ ({ sampleReport with likes := [{ user := none }] } : Report).likedBy { hex := "a" } ∧
    ({ sampleReport with likes := [{ user := none }] } : Report).removeLike { hex := "a" }
      = .error JSError.typeError := by
  refine ⟨by decide, rfl⟩


theorem upCount_vote_up (r r1 : Report) (u : ObjectId)
    (h : r.vote u (JSVal.str "up") = .ok r1) : r1.upCount u = 1 ∧ r1.downCount u = 0 := by
  obtain ⟨hup, hdown⟩ := vote_ok_allHaveUser r r1 u _ h
  rw [vote_up_eq r u hup hdown] at h
  simp only [Except.ok.injEq] at h
  rw [← h]
  simp only [Report.upCount, Report.downCount, preSave_votes]
  exact ⟨count_filter_other_append _ u, count_filter_other _ u⟩

theorem downCount_vote_down (r r1 : Report) (u : ObjectId)
    (h : r.vote u (JSVal.str "down") = .ok r1) : r1.downCount u = 1 ∧ r1.upCount u = 0 := by
  obtain ⟨hup, hdown⟩ := vote_ok_allHaveUser r r1 u _ h
  rw [vote_down_eq r u hup hdown] at h
  simp only [Except.ok.injEq] at h
  rw [← h]
  simp only [Report.upCount, Report.downCount, preSave_votes]
  exact ⟨count_filter_other_append _ u, count_filter_other _ u⟩

/-- The vote sets of a saved `vote` again hold a user in every entry. -/
theorem vote_ok_allHaveUser_after (r r1 : Report) (u : ObjectId) (voteType : JSVal)
    (h : r.vote u voteType = .ok r1) :
    allHaveUser r1.votes.up ∧ allHaveUser r1.votes.down := by
  obtain ⟨hup, hdown⟩ := vote_ok_allHaveUser r r1 u _ h
  rw [vote_of_allHaveUser r u _ hup hdown] at h
  simp only [Except.ok.injEq] at h
  rw [← h, preSave_votes]
  have fu := allHaveUser_filter r.votes.up (fun e => decide (e.user ≠ some u)) hup
  have fd := allHaveUser_filter r.votes.down (fun e => decide (e.user ≠ some u)) hdown
  split
  · exact ⟨allHaveUser_append_some _ u fu, fd⟩
  · exact ⟨fu, allHaveUser_append_some _ u fd⟩
  · exact ⟨fu, fd⟩

/-- What holds of a `vote` that is saved, whatever the vote sets held: a saved
`vote(user, 'up')` leaves the user with exactly one entry in `votes.up` and
none in `votes.down`, a saved `vote(user, 'down')` with exactly one in
`votes.down` and none in `votes.up`; after a saved `vote(user, 'up')` a
`vote(user, 'down')` is saved too and leaves the user in down only; and the
call is saved whenever every entry of the two sets carries its user. -/
theorem saved_vote_moves_user (r : Report) (u : ObjectId) :
    (∀ r1, r.vote u (JSVal.str "up") = .ok r1 → r1.upCount u = 1 ∧ r1.downCount u = 0) ∧
    (∀ r1, r.vote u (JSVal.str "down") = .ok r1 → r1.downCount u = 1 ∧ r1.upCount u = 0) ∧
    (∀ r1, r.vote u (JSVal.str "up") = .ok r1 →
      ∃ r2, r1.vote u (JSVal.str "down") = .ok r2 ∧ r2.downCount u = 1 ∧ r2.upCount u = 0) ∧
    (allHaveUser r.votes.up → allHaveUser r.votes.down →
      ∃ ra rb, r.vote u (JSVal.str "up") = .ok ra ∧ r.vote u (JSVal.str "down") = .ok rb) := by
  refine ⟨fun r1 h => upCount_vote_up r r1 u h, fun r1 h => downCount_vote_down r r1 u h,
    ?_, ?_⟩
  · intro r1 h
    obtain ⟨hup1, hdown1⟩ := vote_ok_allHaveUser_after r r1 u _ h
    have h2 := vote_down_eq r1 u hup1 hdown1
    exact ⟨_, h2, downCount_vote_down r1 _ u h2⟩
  · intro hup hdown
    exact ⟨_, _, vote_up_eq r u hup hdown, vote_down_eq r u hup hdown⟩

/-- An instance: the user `a` starts with two entries in `votes.up` and one in
`votes.down`, all entries naming their user. -/
theorem saved_vote_moves_user_example :
    (stored sampleVotedReport
        (sampleVotedReport.vote { hex := "a" } (JSVal.str "down"))).downCount { hex := "a" } = 1 ∧
    (stored sampleVotedReport
        (sampleVotedReport.vote { hex := "a" } (JSVal.str "down"))).upCount { hex := "a" } = 0 :=
  (saved_vote_moves_user sampleVotedReport { hex := "a" }).2.1
    (stored sampleVotedReport (sampleVotedReport.vote { hex := "a" } (JSVal.str "down"))) rfl

/-- C12 (failing input). The create route stores vote sets in which the
signed-in user is in `votes.up` and in `votes.down`, next to an up-vote that
names no user, which the schema allows (line 76). On that report
`vote(user, 'down')` and `vote(user, 'up')` throw a `TypeError` in the filter
callback of line 126 before anything is removed or inserted: the stored report
still has the user once in `votes.up` and once in `votes.down`, although the
claim says that after the call the user is in the chosen set only. -/
theorem vote_throws_and_leaves_user_in_both_sets :
    (createHandler sampleEnv sampleUser sampleSplitVoteBody).created.map Report.votes
      = some sampleSplitVoteReport.votes ∧
    sampleSplitVoteReport.vote { hex := sampleUser } (JSVal.str "down")
      = .error JSError.typeError ∧
    (stored sampleSplitVoteReport
        (sampleSplitVoteReport.vote { hex := sampleUser } (JSVal.str "down"))).upCount
      { hex := sampleUser } = 1 ∧
    (stored sampleSplitVoteReport
        (sampleSplitVoteReport.vote { hex := sampleUser } (JSVal.str "down"))).downCount
      { hex := sampleUser } = 1 ∧
    sampleSplitVoteReport.vote { hex := sampleUser } (JSVal.str "up")
      = .error JSError.typeError := by
  refine ⟨by decide, rfl, by decide, by decide, rfl⟩

theorem filterMap_filter_other (l : List UserEntry) (u : ObjectId) :
    (l.filter (fun e => decide (e.user ≠ some u))).filterMap UserEntry.user
      = (l.filterMap UserEntry.user).filter (fun v => decide (v ≠ u)) := by
  induction l with
  | nil => rfl
  | cons e rest ih =>
    obtain ⟨user⟩ := e
    cases user with
    | none => simpa [List.filter_cons, List.filterMap_cons] using ih
    | some v =>
      by_cases hv : v = u
      · simpa [List.filter_cons, List.filterMap_cons, hv] using ih
      · simpa [List.filter_cons, List.filterMap_cons, hv] using ih

theorem nodup_move_user (a b : List ObjectId) (u : ObjectId) (h : (a ++ b).Nodup) :
    (a.filter (fun v => decide (v ≠ u)) ++ [u] ++ b.filter (fun v => decide (v ≠ u))).Nodup ∧
    (a.filter (fun v => decide (v ≠ u)) ++ (b.filter (fun v => decide (v ≠ u)) ++ [u])).Nodup ∧
    (a.filter (fun v => decide (v ≠ u)) ++ b.filter (fun v => decide (v ≠ u))).Nodup := by
  have hf : ((a ++ b).filter (fun v => decide (v ≠ u))).Nodup := h.filter _
  have hu : u ∉ (a ++ b).filter (fun v => decide (v ≠ u)) := by
    intro hm
    have := List.of_mem_filter hm
    simp at this
  rw [List.filter_append] at hf hu
  have hcons : (u :: (a.filter (fun v => decide (v ≠ u)) ++
      b.filter (fun v => decide (v ≠ u)))).Nodup := List.nodup_cons.2 ⟨hu, hf⟩
  refine ⟨?_, ?_, hf⟩
  · refine (List.Perm.nodup_iff ?_).2 hcons
    simp only [List.append_assoc, List.singleton_append]
    exact List.perm_middle
  · refine (List.Perm.nodup_iff ?_).2 hcons
    rw [← List.append_assoc]
    exact List.perm_append_singleton _ _

/-- One call keeps the vote sets exclusive, with a user in every entry. -/
theorem run_votesExclusive (op : EngagementOp) (r : Report)
    (hup : allHaveUser r.votes.up) (hdown : allHaveUser r.votes.down)
    (h : r.votesExclusive) :
    allHaveUser (stored r (op.run r)).votes.up ∧
    allHaveUser (stored r (op.run r)).votes.down ∧
    (stored r (op.run r)).votesExclusive := by
  cases hrun : op.run r with
  | error e => exact ⟨hup, hdown, h⟩
  | ok r1 =>
    simp only [stored]
    cases op with
    | addLike u =>
      simp only [EngagementOp.run, Report.addLike] at hrun
      cases hs : someM (sameUser u) r.likes with
      | error e => simp [hs] at hrun
      | ok b =>
        simp only [hs, save, Except.ok.injEq] at hrun
        have hv : r1.votes = r.votes := by
          rw [← hrun, preSave_votes]
          cases b <;> rfl
        unfold Report.votesExclusive Report.upVoters Report.downVoters at h ⊢
        rw [hv]
        exact ⟨hup, hdown, h⟩
    | removeLike u =>
      simp only [EngagementOp.run, Report.removeLike] at hrun
      cases hf : filterM (otherUser u) r.likes with
      | error e => simp [hf] at hrun
      | ok kept =>
        simp only [hf, save, Except.ok.injEq] at hrun
        have hv : r1.votes = r.votes := by rw [← hrun, preSave_votes]
        unfold Report.votesExclusive Report.upVoters Report.downVoters at h ⊢
        rw [hv]
        exact ⟨hup, hdown, h⟩
    | addComment u text =>
      simp only [EngagementOp.run, Report.addComment] at hrun
      split at hrun
      · simp only [save, Except.ok.injEq] at hrun
        have hv : r1.votes = r.votes := by rw [← hrun, preSave_votes]
        unfold Report.votesExclusive Report.upVoters Report.downVoters at h ⊢
        rw [hv]
        exact ⟨hup, hdown, h⟩
      · simp at hrun
    | vote u voteType =>
      simp only [EngagementOp.run] at hrun
      obtain ⟨h1, h2⟩ := vote_ok_allHaveUser_after r r1 u _ hrun
      refine ⟨h1, h2, ?_⟩
      rw [vote_of_allHaveUser r u _ hup hdown] at hrun
      simp only [Except.ok.injEq] at hrun
      unfold Report.votesExclusive Report.upVoters Report.downVoters at h ⊢
      obtain ⟨n1, n2, n3⟩ := nodup_move_user _ _ u h
      rw [← hrun, preSave_votes]
      split
      · simp only [List.filterMap_append, filterMap_filter_other, List.filterMap_cons,
          List.filterMap_nil]
        simpa using n1
      · simp only [List.filterMap_append, filterMap_filter_other, List.filterMap_cons,
          List.filterMap_nil]
        simpa using n2
      · simp only [List.filterMap_append, filterMap_filter_other, List.filterMap_cons,
          List.filterMap_nil]
        simpa using n3

theorem runAll_votesExclusive (ops : List EngagementOp) : ∀ r : Report,
    allHaveUser r.votes.up → allHaveUser r.votes.down → r.votesExclusive →
    (runAll ops r).votesExclusive := by
  induction ops with
  | nil =>
    intro r _ _ h
    exact h
  | cons op rest ih =>
    intro r hup hdown h
    obtain ⟨h1, h2, h3⟩ := run_votesExclusive op r hup hdown h
    exact ih (stored r (op.run r)) h1 h2 h3

/-- C13. In every state reached from a report with empty vote sets by a
sequence of `addLike`, `removeLike`, `addComment` and `vote` calls (any users,
any arguments), every user appears in at most one of `votes.up` and
`votes.down`, and at most once in it. -/
theorem votes_exclusive_in_reachable_states (r : Report) (ops : List EngagementOp)
    (hup : r.votes.up = []) (hdown : r.votes.down = []) :
    (runAll ops r).votesExclusive := by
  apply runAll_votesExclusive ops r
  · simp [hup, allHaveUser]
  · simp [hdown, allHaveUser]
  · simp [Report.votesExclusive, Report.upVoters, Report.downVoters, hup, hdown]

/-- Witness for C13: a user votes up, then down, then up again, and another
user votes down. -/
theorem votes_exclusive_in_reachable_states_witness :
    (runAll [EngagementOp.vote { hex := "a" } (JSVal.str "up"),
        EngagementOp.vote { hex := "a" } (JSVal.str "down"),
        EngagementOp.vote { hex := "b" } (JSVal.str "down"),
        EngagementOp.vote { hex := "a" } (JSVal.str "up")] sampleReport).votesExclusive ∧
    (runAll [EngagementOp.vote { hex := "a" } (JSVal.str "up"),
        EngagementOp.vote { hex := "a" } (JSVal.str "down"),
        EngagementOp.vote { hex := "b" } (JSVal.str "down"),
        EngagementOp.vote { hex := "a" } (JSVal.str "up")] sampleReport).voteScore = 0 :=
  ⟨votes_exclusive_in_reachable_states sampleReport _ rfl rfl, by decide⟩


theorem vote_other_eq (r : Report) (u : ObjectId) (voteType : JSVal)
    (hup : allHaveUser r.votes.up) (hdown : allHaveUser r.votes.down)
    (h1 : voteType ≠ JSVal.str "up") (h2 : voteType ≠ JSVal.str "down") :
    r.vote u voteType = .ok (preSave { r with votes :=
        { up := r.votes.up.filter (fun e => decide (e.user ≠ some u)),
          down := r.votes.down.filter (fun e => decide (e.user ≠ some u)) } }) := by
  rw [vote_of_allHaveUser r u _ hup hdown]
  split
  · exact absurd rfl h1
  · exact absurd rfl h2
  · rfl

theorem report_votes_eta (r : Report) (v : Votes) (h : r.votes = v) :
    ({ r with votes := v } : Report) = r := by
  subst h
  rfl

/-- A second `vote` with the same arguments returns the document the first one
saved. -/
theorem vote_ok_again (r r1 : Report) (u : ObjectId) (voteType : JSVal)
    (h : r.vote u voteType = .ok r1) : r1.vote u voteType = .ok r1 := by
  obtain ⟨hup, hdown⟩ := vote_ok_allHaveUser r r1 u _ h
  obtain ⟨hup1, hdown1⟩ := vote_ok_allHaveUser_after r r1 u _ h
  by_cases h1 : voteType = JSVal.str "up"
  · subst h1
    rw [vote_up_eq r u hup hdown] at h
    simp only [Except.ok.injEq] at h
    have hv : r1.votes = Votes.mk
        (r.votes.up.filter (fun e => decide (e.user ≠ some u)) ++ [{ user := some u }])
        (r.votes.down.filter (fun e => decide (e.user ≠ some u))) := by
      rw [← h, preSave_votes]
    rw [vote_up_eq r1 u hup1 hdown1, report_votes_eta r1 _ ?_, ← h, preSave_idem]
    rw [hv]
    dsimp only
    rw [filter_other_append_idem, filter_other_idem]
  · by_cases h2 : voteType = JSVal.str "down"
    · subst h2
      rw [vote_down_eq r u hup hdown] at h
      simp only [Except.ok.injEq] at h
      have hv : r1.votes = Votes.mk
          (r.votes.up.filter (fun e => decide (e.user ≠ some u)))
          (r.votes.down.filter (fun e => decide (e.user ≠ some u)) ++ [{ user := some u }]) := by
        rw [← h, preSave_votes]
      rw [vote_down_eq r1 u hup1 hdown1, report_votes_eta r1 _ ?_, ← h, preSave_idem]
      rw [hv]
      dsimp only
      rw [filter_other_append_idem, filter_other_idem]
    · rw [vote_other_eq r u _ hup hdown h1 h2] at h
      simp only [Except.ok.injEq] at h
      have hv : r1.votes = Votes.mk
          (r.votes.up.filter (fun e => decide (e.user ≠ some u)))
          (r.votes.down.filter (fun e => decide (e.user ≠ some u))) := by
        rw [← h, preSave_votes]
      rw [vote_other_eq r1 u _ hup1 hdown1 h1 h2, report_votes_eta r1 _ ?_, ← h, preSave_idem]
      rw [hv]
      dsimp only
      rw [filter_other_idem, filter_other_idem]

/-! ## Claims on votes, comments and the state of the report -/

/-- C14. For every report, every user and each direction, a second
`vote(user, d)` returns the very document the first one saved, so the stored
report after two calls is the stored report after one. -/
theorem vote_twice_same_as_once (r : Report) (u : ObjectId) :
    (∀ r1, r.vote u (JSVal.str "up") = .ok r1 → r1.vote u (JSVal.str "up") = .ok r1) ∧
    (∀ r1, r.vote u (JSVal.str "down") = .ok r1 → r1.vote u (JSVal.str "down") = .ok r1) ∧
    runAll [EngagementOp.vote u (JSVal.str "up"), EngagementOp.vote u (JSVal.str "up")] r
      = runAll [EngagementOp.vote u (JSVal.str "up")] r ∧
    runAll [EngagementOp.vote u (JSVal.str "down"), EngagementOp.vote u (JSVal.str "down")] r
      = runAll [EngagementOp.vote u (JSVal.str "down")] r := by
  have twice : ∀ voteType : JSVal,
      runAll [EngagementOp.vote u voteType, EngagementOp.vote u voteType] r
        = runAll [EngagementOp.vote u voteType] r := by
    intro voteType
    simp only [runAll, List.foldl_cons, List.foldl_nil, EngagementOp.run]
    cases h : r.vote u voteType with
    | error e => simp [stored, h]
    | ok r1 => simp [stored, vote_ok_again r r1 u voteType h]
  exact ⟨fun r1 h => vote_ok_again r r1 u _ h, fun r1 h => vote_ok_again r r1 u _ h,
    twice _, twice _⟩

/-- C15 (as amended). For every report, user and text that is not empty and at
most 200 long, `addComment` is saved with exactly one new entry (user, text) at
the end of `comments`, every earlier comment in its place, whether or not an
equal comment exists already, and `commentCount` one higher; for any other text
`save()` rejects and nothing is stored. -/
theorem addComment_appends_valid_text (r : Report) (u : ObjectId) (text : String) :
    (Report.commentValid text = true →
      ∃ r1, r.addComment u text = .ok r1 ∧
        r1.comments = r.comments ++ [{ user := some u, text := text }] ∧
        r1.commentCount = r.commentCount + 1 ∧
        ∀ i, i < r.comments.length → r1.comments[i]? = r.comments[i]?) ∧
    (Report.commentValid text = false →
      r.addComment u text = .error (JSError.validationError "comments.text")) := by
  constructor
  · intro hvalid
    refine ⟨preSave { r with comments := r.comments ++ [{ user := some u, text := text }] },
      ?_, ?_, ?_, ?_⟩
    · simp [Report.addComment, hvalid, save]
    · rw [preSave_comments]
    · simp [Report.commentCount, preSave_comments]
    · intro i hi
      rw [preSave_comments]
      exact List.getElem?_append_left hi
  · intro hinvalid
    simp [Report.addComment, hinvalid]

/-- Witness for C15: the same comment made twice gives two entries. -/
theorem addComment_appends_valid_text_witness :
    (runAll [EngagementOp.addComment { hex := "a" } "Still there",
        EngagementOp.addComment { hex := "a" } "Still there"] sampleReport).commentCount = 2 ∧
    ∃ r1, sampleReport.addComment { hex := "a" } "Still there" = .ok r1 ∧
      r1.comments = sampleReport.comments ++ [{ user := some { hex := "a" }, text := "Still there" }] ∧
      r1.commentCount = sampleReport.commentCount + 1 ∧
      ∀ i, i < sampleReport.comments.length → r1.comments[i]? = sampleReport.comments[i]? :=
  ⟨by decide,
   (addComment_appends_valid_text sampleReport { hex := "a" } "Still there").1 (by decide)⟩

/-- C15 (as stated) fails at the empty text: the schema requires `text` (line
72), `save()` rejects, and the stored report has as many comments as before. -/
theorem addComment_rejects_empty_text :
    sampleReport.addComment { hex := "a" } ""
      = .error (JSError.validationError "comments.text") ∧
    (stored sampleReport (sampleReport.addComment { hex := "a" } "")).commentCount
      = sampleReport.commentCount := by
  refine ⟨rfl, rfl⟩

theorem run_ok_commentCount (op : EngagementOp) (r r1 : Report)
    (hrun : op.run r = .ok r1) : r.commentCount ≤ r1.commentCount := by
  unfold Report.commentCount
  cases op with
  | addLike u =>
    simp only [EngagementOp.run, Report.addLike] at hrun
    cases hs : someM (sameUser u) r.likes with
    | error e => simp [hs] at hrun
    | ok b =>
      simp only [hs, save, Except.ok.injEq] at hrun
      rw [← hrun, preSave_comments]
      cases b <;> simp
  | removeLike u =>
    simp only [EngagementOp.run, Report.removeLike] at hrun
    cases hf : filterM (otherUser u) r.likes with
    | error e => simp [hf] at hrun
    | ok kept =>
      simp only [hf, save, Except.ok.injEq] at hrun
      rw [← hrun, preSave_comments]
  | addComment u text =>
    simp only [EngagementOp.run, Report.addComment] at hrun
    split at hrun
    · simp only [save, Except.ok.injEq] at hrun
      rw [← hrun, preSave_comments]
      simp
    · simp at hrun
  | vote u voteType =>
    simp only [EngagementOp.run, Report.vote] at hrun
    cases hup : filterM (otherUser u) r.votes.up with
    | error e => simp [hup] at hrun
    | ok up =>
      cases hdown : filterM (otherUser u) r.votes.down with
      | error e => simp [hup, hdown] at hrun
      | ok down =>
        simp only [hup, hdown, save, Except.ok.injEq] at hrun
        rw [← hrun, preSave_comments]

/-- C16. For every report and each of `addLike`, `removeLike`, `vote` and
`addComment` (any user, any arguments), `commentCount` after the call is at
least `commentCount` before it: in the document the call saves, and in the
stored report when the call fails. -/
theorem commentCount_never_decreases (op : EngagementOp) (r : Report) :
    (∀ r1, op.run r = .ok r1 → r.commentCount ≤ r1.commentCount) ∧
    r.commentCount ≤ (stored r (op.run r)).commentCount := by
  refine ⟨fun r1 h => run_ok_commentCount op r r1 h, ?_⟩
  cases hrun : op.run r with
  | error e => exact Nat.le_refl _
  | ok r1 => exact run_ok_commentCount op r r1 hrun


theorem preSave_isActive (r : Report) (b : Bool) :
    preSave { r with isActive := b } = { preSave r with isActive := b } := by
  unfold preSave
  dsimp only
  split
  · split <;> rfl
  · rfl

/-- The engagement methods do not read `isActive`: on a report with the flag
set to `b` they do what they do on the report itself, and keep the flag. -/
theorem run_isActive (op : EngagementOp) (r : Report) (b : Bool) :
    op.run { r with isActive := b }
      = (op.run r).map (fun r1 => { r1 with isActive := b }) := by
  cases op with
  | addLike u =>
    simp only [EngagementOp.run, Report.addLike]
    cases hs : someM (sameUser u) r.likes with
    | error e => rfl
    | ok found =>
      cases found <;> simp only [save, Except.map] <;> rw [← preSave_isActive] <;> rfl
  | removeLike u =>
    simp only [EngagementOp.run, Report.removeLike]
    cases hf : filterM (otherUser u) r.likes with
    | error e => rfl
    | ok kept =>
      simp only [save, Except.map]
      rw [← preSave_isActive]
  | addComment u text =>
    simp only [EngagementOp.run, Report.addComment]
    split
    · simp only [save, Except.map]
      rw [← preSave_isActive]
    · rfl
  | vote u voteType =>
    simp only [EngagementOp.run, Report.vote]
    cases hup : filterM (otherUser u) r.votes.up with
    | error e => rfl
    | ok up =>
      cases hdown : filterM (otherUser u) r.votes.down with
      | error e => rfl
      | ok down =>
        simp only [save, Except.map]
        rw [← preSave_isActive]

/-- C17 (as amended). For every report whose `isActive` flag is false, each of
`addLike`, `removeLike`, `addComment` and `vote` runs exactly as on the same
report with the flag true: the flag is not read, no error is raised on its
account, and likes, votes and comments change as they would on an active
report. -/
theorem inactive_report_is_engaged_like_active (op : EngagementOp) (r : Report)
    (hinactive : r.isActive = false) :
    op.run r = (op.run { r with isActive := true }).map
      (fun r1 => { r1 with isActive := false }) := by
  have h := run_isActive op { r with isActive := true } false
  have hr : ({ ({ r with isActive := true } : Report) with isActive := false } : Report) = r := by
    cases r
    simp only at hinactive
    subst hinactive
    rfl
  rw [hr] at h
  exact h

/-- Witness for C17: a like on the deactivated sample report. -/
theorem inactive_report_is_engaged_like_active_witness :
    (EngagementOp.addLike { hex := "a" }).run { sampleReport with isActive := false }
      = ((EngagementOp.addLike { hex := "a" }).run
          { ({ sampleReport with isActive := false } : Report) with isActive := true }).map
        (fun r1 => { r1 with isActive := false }) :=
  inactive_report_is_engaged_like_active (EngagementOp.addLike { hex := "a" })
    { sampleReport with isActive := false } rfl

/-- C17 (as stated) fails: on the deactivated sample report `addLike`,
`addComment` and `vote` are saved, the like, the comment and the vote are
there afterwards, and no error is raised. -/
theorem inactive_report_accepts_engagement :
    ({ sampleReport with isActive := false } : Report).isActive = false ∧
    (stored { sampleReport with isActive := false }
      (({ sampleReport with isActive := false } : Report).addLike { hex := "a" })).likeCount = 1 ∧
    (stored { sampleReport with isActive := false }
      (({ sampleReport with isActive := false } : Report).addComment { hex := "a" }
        "Still there")).commentCount = 1 ∧
    (stored { sampleReport with isActive := false }
      (({ sampleReport with isActive := false } : Report).vote { hex := "a" }
        (JSVal.str "up"))).voteScore = 1 ∧
    (({ sampleReport with isActive := false } : Report).addLike { hex := "a" }).toOption.isSome
      = true := by
  refine ⟨rfl, by decide, by decide, by decide, by decide⟩

/-- C18 (failing input). The create route stores the `likes` and `votes` of the
request body, whose entries need not name a user (lines 66-69 and 75-78); on
the report so created `addLike`, `removeLike` and `vote` by a valid user throw
a `TypeError`, because their callbacks read `entry.user.toString()`. -/
theorem engagement_throws_on_entry_without_user :
    (createHandler sampleEnv sampleUser sampleOrphanBody).created.map Report.likes
      = some sampleOrphanReport.likes ∧
    (createHandler sampleEnv sampleUser sampleOrphanBody).created.map Report.votes
      = some sampleOrphanReport.votes ∧
    sampleOrphanReport.addLike { hex := sampleUser } = .error JSError.typeError ∧
    sampleOrphanReport.removeLike { hex := sampleUser } = .error JSError.typeError ∧
    sampleOrphanReport.vote { hex := sampleUser } (JSVal.str "up")
      = .error JSError.typeError := by
  refine ⟨by decide, by decide, rfl, rfl, rfl⟩


/-! ## The retry loop -/

/-- The loop ends at the first attempt that succeeds, when there is one within
`retries`. -/
theorem retryLoop_success (post : Nat → Except ClientError JSVal) (retries : Int)
    (k : Nat) (data : JSVal) (hk : (k : Int) ≤ retries) (hpost : post k = .ok data) :
    ∀ remaining attempt : Nat, attempt ≤ k → (attempt : Int) + remaining = retries + 1 →
      (∀ j : Nat, attempt ≤ j → j < k → ∃ e, post j = .error e) →
      (retryLoop post retries remaining attempt).requests = k + 1 - attempt ∧
      (retryLoop post retries remaining attempt).result = .ok data ∧
      (retryLoop post retries remaining attempt).waits
        = (List.range' attempt (k - attempt)).map (fun n => 1000 * n) := by
  intro remaining
  induction remaining with
  | zero =>
    intro attempt hle hsum _
    omega
  | succ n ih =>
    intro attempt hle hsum hfail
    by_cases hak : attempt = k
    · subst hak
      simp [retryLoop, hpost]
    · have hlt : attempt < k := Nat.lt_of_le_of_ne hle hak
      obtain ⟨e, he⟩ := hfail attempt (Nat.le_refl _) hlt
      have hne : ¬ ((attempt : Int) = retries) := by omega
      have ih' := ih (attempt + 1) hlt (by push_cast; push_cast at hsum; omega)
        (fun j hj hjk => hfail j (by omega) hjk)
      simp only [retryLoop, he, hne, if_false]
      refine ⟨by rw [ih'.1]; omega, ih'.2.1, ?_⟩
      rw [ih'.2.2]
      have hsplit : k - attempt = (k - (attempt + 1)) + 1 := by omega
      rw [hsplit, List.range'_succ]
      simp

/-- The loop sends `retries` requests and throws when every attempt fails. -/
theorem retryLoop_failure (post : Nat → Except ClientError JSVal) (retries : Int) :
    ∀ remaining attempt : Nat, (attempt : Int) + remaining = retries →
      (∀ j : Nat, attempt ≤ j → (j : Int) ≤ retries → ∃ e, post j = .error e) →
      (retryLoop post retries (remaining + 1) attempt).requests = remaining + 1 ∧
      (∃ e, post retries.toNat = .error e ∧
        (retryLoop post retries (remaining + 1) attempt).result = .error (finalError e)) ∧
      (retryLoop post retries (remaining + 1) attempt).waits
        = (List.range' attempt remaining).map (fun n => 1000 * n) := by
  intro remaining
  induction remaining with
  | zero =>
    intro attempt hsum hfail
    have hat : (attempt : Int) = retries := by
      push_cast at hsum
      omega
    obtain ⟨e, he⟩ := hfail attempt (Nat.le_refl _) (le_of_eq hat)
    have hto : retries.toNat = attempt := by omega
    have hloop : retryLoop post retries (0 + 1) attempt
        = { requests := 1, waits := [], result := .error (finalError e) } := by
      simp [retryLoop, he, hat]
    rw [hloop]
    refine ⟨rfl, ⟨e, ?_, rfl⟩, by simp⟩
    rw [hto]
    exact he
  | succ n ih =>
    intro attempt hsum hfail
    have hle : (attempt : Int) ≤ retries := by
      push_cast at hsum
      omega
    obtain ⟨e, he⟩ := hfail attempt (Nat.le_refl _) hle
    have hne : ¬ ((attempt : Int) = retries) := by
      push_cast at hsum
      omega
    have ih' := ih (attempt + 1) (by push_cast; push_cast at hsum; omega)
      (fun j hj hjr => hfail j (by omega) hjr)
    rw [retryLoop]
    simp only [he, hne, if_false]
    refine ⟨by rw [ih'.1]; omega, ih'.2.1, ?_⟩
    rw [ih'.2.2, List.range'_succ]
    simp

theorem apiClientPost_ok (transport : Nat → Except ClientError JSVal) (n : Nat) (data : JSVal)
    (h : transport n = .ok data) : apiClientPost transport n = .ok data := by
  simp [apiClientPost, h]

theorem apiClientPost_error (transport : Nat → Except ClientError JSVal) (n : Nat)
    (e : ClientError) (h : transport n = .error e) :
    apiClientPost transport n = .error (responseInterceptor e) := by
  simp [apiClientPost, h]

/-! ## Claims on the submission retry -/

/-- C19. For every `retries >= 1` and every sequence of outcomes of the
attempts: when attempt `k` is the first that succeeds and `k <= retries`,
`createReport` sends exactly `k` requests and returns the response of attempt
`k`; when every attempt up to `retries` fails, it sends exactly `retries`
requests and throws. -/
theorem createReport_sends_until_success (transport : Nat → Except ClientError JSVal)
    (retries : Int) (hretries : 1 ≤ retries) :
    (∀ (k : Nat) (data : JSVal), 1 ≤ k → (k : Int) ≤ retries →
      (∀ j : Nat, 1 ≤ j → j < k → ∃ e, transport j = .error e) → transport k = .ok data →
      (createReport transport retries).requests = k ∧
      (createReport transport retries).result = .ok data) ∧
    ((∀ j : Nat, 1 ≤ j → (j : Int) ≤ retries → ∃ e, transport j = .error e) →
      ((createReport transport retries).requests : Int) = retries ∧
      ∃ e, (createReport transport retries).result = .error e) := by
  constructor
  · intro k data hk1 hkr hfail hok
    have h := retryLoop_success (apiClientPost transport) retries k data hkr
      (apiClientPost_ok transport k data hok) retries.toNat 1 hk1 (by omega)
      (fun j hj hjk => by
        obtain ⟨e, he⟩ := hfail j hj hjk
        exact ⟨_, apiClientPost_error transport j e he⟩)
    exact ⟨by simpa [createReport, createReportWith] using h.1, h.2.1⟩
  · intro hfail
    obtain ⟨n, hn⟩ : ∃ n : Nat, retries.toNat = n + 1 := ⟨retries.toNat - 1, by omega⟩
    have h := retryLoop_failure (apiClientPost transport) retries n 1 (by omega)
      (fun j hj hjr => by
        obtain ⟨e, he⟩ := hfail j hj hjr
        exact ⟨_, apiClientPost_error transport j e he⟩)
    unfold createReport createReportWith
    rw [hn]
    refine ⟨by rw [h.1]; omega, ?_⟩
    obtain ⟨e, -, he⟩ := h.2.1
    exact ⟨_, he⟩

/-- Witness for C19: a timeout on attempt 1, success on attempt 2, with
`retries = 2`: two requests, and the response of attempt 2 is returned. -/
theorem createReport_sends_until_success_witness :
    (createReport (sampleTransport [.error timeoutError, .ok createdResponse]) 2).requests = 2 ∧
    (createReport (sampleTransport [.error timeoutError, .ok createdResponse]) 2).result
      = .ok createdResponse :=
  (createReport_sends_until_success
      (sampleTransport [.error timeoutError, .ok createdResponse]) 2 (by decide)).1
    2 createdResponse (by decide) (by decide)
    (fun j hj hjk => by
      have : j = 1 := by omega
      subst this
      exact ⟨timeoutError, rfl⟩)
    rfl

/-- C20 (as amended). For every `retries >= 2`, when the first attempt fails,
with a 4xx response as with any other error, `createReport` does not give up:
it waits 1000 ms and sends a second request. With `retries = 1` it sends one
request, waits for nothing and throws. -/
theorem createReport_retries_after_any_failure (transport : Nat → Except ClientError JSVal)
    (retries : Int) (e : ClientError) (hfirst : transport 1 = .error e) :
    (2 ≤ retries →
      2 ≤ (createReport transport retries).requests ∧
      (createReport transport retries).waits.head? = some 1000) ∧
    (retries = 1 →
      (createReport transport retries).requests = 1 ∧
      (createReport transport retries).waits = [] ∧
      (createReport transport retries).result = .error (finalError (responseInterceptor e))) := by
  constructor
  · intro h2
    obtain ⟨n, hn⟩ : ∃ n : Nat, retries.toNat = n + 2 := ⟨retries.toNat - 2, by omega⟩
    have hne : ¬ (((1 : Nat) : Int) = retries) := by omega
    unfold createReport createReportWith
    rw [hn]
    rw [retryLoop]
    simp only [apiClientPost_error transport 1 e hfirst, hne, if_false]
    constructor
    · rw [retryLoop]
      split
      · simp
      · split
        · simp
        · simp only []
          omega
    · simp
  · intro h1
    subst h1
    simp [createReport, createReportWith, retryLoop, apiClientPost_error transport 1 e hfirst]

/-- Witness for C20: a 400 on attempt 1 with `retries = 3`. -/
theorem createReport_retries_after_any_failure_witness :
    2 ≤ (createReport (sampleTransport [.error badRequestError]) 3).requests ∧
    (createReport (sampleTransport [.error badRequestError]) 3).waits.head? = some 1000 :=
  (createReport_retries_after_any_failure (sampleTransport [.error badRequestError]) 3
    badRequestError rfl).1 (by decide)

/-- C20 (as stated) fails: with `retries = 2` and a 400 response to the first
attempt, `createReport` waits 1000 ms and sends a second request, whose
response it returns. -/
theorem createReport_retries_after_bad_request :
    (createReport (sampleTransport [.error badRequestError, .ok createdResponse]) 2).requests
      = 2 ∧
    (createReport (sampleTransport [.error badRequestError, .ok createdResponse]) 2).waits
      = [1000] ∧
    (createReport (sampleTransport [.error badRequestError, .ok createdResponse]) 2).result
      = .ok createdResponse := by
  refine ⟨by decide, by decide, rfl⟩


/-! ## The errors and the waits of `createReport` -/

theorem orElse_ne_empty (a : Option String) (fallback : String) (h : fallback ≠ "") :
    orElse a fallback ≠ "" := by
  unfold orElse
  cases a with
  | none => exact h
  | some s =>
    by_cases hs : s = ""
    · simp [hs, h]
    · simp [hs]

theorem orElse_some_ne_empty (s fallback : String) (h : s ≠ "") :
    orElse (some s) fallback = s := by
  simp [orElse, h]

theorem responseInterceptor_message_ne_empty (e : ClientError) :
    (responseInterceptor e).message ≠ "" := by
  unfold responseInterceptor
  cases e.response with
  | none => simp [newError]
  | some resp =>
    dsimp only
    split
    · simp [newError]
    · split
      · simp [newError]
      · exact orElse_ne_empty _ _ (orElse_ne_empty _ _ (by decide))

theorem responseInterceptor_eq_newError (e : ClientError) :
    responseInterceptor e = newError (responseInterceptor e).message := by
  unfold responseInterceptor
  cases e.response with
  | none => rfl
  | some resp =>
    dsimp only
    split
    · rfl
    · split <;> rfl

/-- Behind the interceptor the `catch` block of `createReport` always takes its
last branch: the error it throws is the one the interceptor threw. -/
theorem finalError_responseInterceptor (e : ClientError) :
    finalError (responseInterceptor e) = responseInterceptor e := by
  have hne := responseInterceptor_message_ne_empty e
  have hform := responseInterceptor_eq_newError e
  rw [hform]
  simp only [finalError, newError]
  simp [orElse_some_ne_empty _ _ hne]

/-- An error thrown by the loop is the final error of a failed attempt. -/
theorem retryLoop_error (post : Nat → Except ClientError JSVal) (retries : Int) :
    ∀ (remaining attempt : Nat) (x : ClientError),
      (retryLoop post retries remaining attempt).result = .error x →
      ∃ n e, post n = .error e ∧ x = finalError e := by
  intro remaining
  induction remaining with
  | zero =>
    intro attempt x h
    simp [retryLoop] at h
  | succ n ih =>
    intro attempt x h
    rw [retryLoop] at h
    cases hp : post attempt with
    | ok data => simp [hp] at h
    | error e =>
      simp only [hp] at h
      split at h
      · simp only [Except.error.injEq] at h
        exact ⟨attempt, e, hp, h.symm⟩
      · exact ih (attempt + 1) x h

/-- Every error `createReport` throws is one of the interceptor's errors. -/
theorem createReport_error (transport : Nat → Except ClientError JSVal) (retries : Int)
    (x : ClientError) (h : (createReport transport retries).result = .error x) :
    ∃ n e, transport n = .error e ∧ x = responseInterceptor e := by
  obtain ⟨n, e, hpost, hx⟩ := retryLoop_error (apiClientPost transport) retries _ _ x h
  unfold apiClientPost at hpost
  cases ht : transport n with
  | ok data => simp [ht] at hpost
  | error e0 =>
    simp only [ht, Except.error.injEq] at hpost
    refine ⟨n, e0, ht, ?_⟩
    rw [hx, ← hpost, finalError_responseInterceptor]

/-- The waits of the loop are 1000 ms times the number of the attempt that
failed, one for every request but the last. -/
theorem retryLoop_waits (post : Nat → Except ClientError JSVal) (retries : Int) :
    ∀ remaining attempt : Nat, (attempt : Int) + remaining = retries + 1 →
      (retryLoop post retries remaining attempt).waits
        = (List.range' attempt ((retryLoop post retries remaining attempt).requests - 1)).map
            (fun n => 1000 * n) ∧
      (1 ≤ remaining → 1 ≤ (retryLoop post retries remaining attempt).requests) := by
  intro remaining
  induction remaining with
  | zero =>
    intro attempt _
    simp [retryLoop]
  | succ n ih =>
    intro attempt hsum
    rw [retryLoop]
    cases hp : post attempt with
    | ok data => simp
    | error e =>
      dsimp only
      split
      · simp
      · rename_i hne
        have hn : 1 ≤ n := by
          push_cast at hsum
          omega
        obtain ⟨hw, hr⟩ := ih (attempt + 1) (by push_cast; push_cast at hsum; omega)
        have hreq := hr hn
        refine ⟨?_, by simp⟩
        dsimp only
        rw [hw]
        have hsplit : 1 + (retryLoop post retries n (attempt + 1)).requests - 1
            = ((retryLoop post retries n (attempt + 1)).requests - 1) + 1 := by omega
        rw [hsplit, List.range'_succ]
        simp


/-- When every attempt fails the number of requests is `retries`. -/
theorem createReport_requests_all_fail (transport : Nat → Except ClientError JSVal)
    (retries : Int) (hretries : 1 ≤ retries)
    (hfail : ∀ j : Nat, 1 ≤ j → (j : Int) ≤ retries → ∃ e, transport j = .error e) :
    ((createReport transport retries).requests : Int) = retries := by
  obtain ⟨n, hn⟩ : ∃ n : Nat, retries.toNat = n + 1 := ⟨retries.toNat - 1, by omega⟩
  have h := retryLoop_failure (apiClientPost transport) retries n 1 (by omega)
    (fun j hj hjr => by
      obtain ⟨e, he⟩ := hfail j hj hjr
      exact ⟨_, apiClientPost_error transport j e he⟩)
  unfold createReport createReportWith
  rw [hn, h.1]
  omega

/-! ## Claims on the client -/

/-- C21 (failing input). Called through `apiClient`, `createReport` never sees
the transport error: the response interceptor has replaced it by a plain
`Error`. When both attempts run into the timeout the caller gets the
network-error message, not the timeout message that the `catch` block holds
for code `ECONNABORTED`; when the server answers 500 without a message the
caller gets the transport's message, not 'Server error occurred'. -/
theorem timeout_is_reported_as_network_error :
    (createReport (sampleTransport [.error timeoutError, .error timeoutError]) 2).result
      = .error (newError "Network error - please check your connection") ∧
    finalError timeoutError
      = newError "Request timed out. Please check your connection and try again." ∧
    (createReport (sampleTransport [.error serverError, .error serverError]) 2).result
      = .error (newError "Request failed with status code 500") ∧
    finalError serverError = newError "Server error occurred" := by
  refine ⟨rfl, rfl, rfl, rfl⟩

/-- C22. For every `retries >= 1` the waits of `createReport` are 1000 ms
times 1, 2, ..., one before each request after the first: the wait after the
failed attempt `n` is `1000 * n`, the waits strictly increase, and when every
attempt fails there are `retries - 1` of them, none after the last failure. -/
theorem createReport_backoff (transport : Nat → Except ClientError JSVal) (retries : Int)
    (hretries : 1 ≤ retries) :
    (createReport transport retries).waits
      = (List.range' 1 ((createReport transport retries).requests - 1)).map
          (fun n => 1000 * n) ∧
    (createReport transport retries).waits.Pairwise (fun a b => a < b) ∧
    (∀ n : Nat, 1 ≤ n → n < (createReport transport retries).requests →
      (createReport transport retries).waits[n - 1]? = some (1000 * n)) ∧
    ((∀ j : Nat, 1 ≤ j → (j : Int) ≤ retries → ∃ e, transport j = .error e) →
      ((createReport transport retries).requests : Int) = retries ∧
      ((createReport transport retries).waits.length : Int) = retries - 1) := by
  have hw := (retryLoop_waits (apiClientPost transport) retries retries.toNat 1
    (by omega)).1
  have hw' : (createReport transport retries).waits
      = (List.range' 1 ((createReport transport retries).requests - 1)).map
          (fun n => 1000 * n) := hw
  refine ⟨hw', ?_, ?_, ?_⟩
  · rw [hw']
    refine List.Pairwise.map _ ?_ (List.pairwise_lt_range' 1 _)
    intro a b hab
    omega
  · intro n h1 hn
    have hlt : n - 1 < (createReport transport retries).requests - 1 := by omega
    rw [hw', List.getElem?_map, List.getElem?_range' 1 1 hlt]
    simp only [Option.map_some', Option.some.injEq]
    omega
  · intro hfail
    have hreq := createReport_requests_all_fail transport retries hretries hfail
    refine ⟨hreq, ?_⟩
    rw [hw', List.length_map, List.length_range']
    omega

/-- Witness for C22: four failing attempts wait 1000, 2000 and 3000 ms. -/
theorem createReport_backoff_witness :
    (createReport (sampleTransport []) 4).waits = [1000, 2000, 3000] :=
  (createReport_backoff (sampleTransport []) 4 (by decide)).1.trans (by decide)

/-- C30. For every `retries` below 1 the loop of `createReport` is not
entered: no request is sent, nothing is waited for, and the call returns
`undefined` instead of throwing. -/
theorem createReport_without_attempts (transport : Nat → Except ClientError JSVal)
    (retries : Int) (hretries : retries < 1) :
    (createReport transport retries).requests = 0 ∧
    (createReport transport retries).waits = [] ∧
    (createReport transport retries).result = .ok JSVal.undefined := by
  have h0 : retries.toNat = 0 := by omega
  simp [createReport, createReportWith, h0, retryLoop]

/-- Witness for C30: `retries = 0` on a transport that would answer 201. -/
theorem createReport_without_attempts_witness :
    (createReport (sampleTransport [.ok createdResponse]) 0).requests = 0 ∧
    (createReport (sampleTransport [.ok createdResponse]) 0).result = .ok JSVal.undefined :=
  ⟨(createReport_without_attempts (sampleTransport [.ok createdResponse]) 0 (by decide)).1,
   (createReport_without_attempts (sampleTransport [.ok createdResponse]) 0 (by decide)).2.2⟩

/-- C23. For every draft whose report type, location text or description is
empty, `handleSubmit` shows the validation error and does nothing else: no
connection test, no POST, and the submitting state is not entered. -/
theorem handleSubmit_rejects_incomplete_draft (env : ClientEnv) (d : Draft)
    (hempty : d.selectedType = "" ∨ d.location = "" ∨ d.description = "") :
    handleSubmit env d = [UiEvent.toastError "Please fill in all required fields"] ∧
    (handleSubmit env d).any UiEvent.isNetworkCall = false ∧
    (handleSubmit env d).any UiEvent.entersSubmitting = false := by
  have h : handleSubmit env d = [UiEvent.toastError "Please fill in all required fields"] := by
    unfold handleSubmit
    rcases hempty with h | h | h <;> simp [h]
  rw [h]
  exact ⟨rfl, rfl, rfl⟩

/-- Witness for C23: the sample draft without a location text. -/
theorem handleSubmit_rejects_incomplete_draft_witness :
    handleSubmit (sampleClientEnv (sampleTransport [.ok createdResponse]))
        { sampleDraft JSVal.null JSVal.null with location := "" }
      = [UiEvent.toastError "Please fill in all required fields"] :=
  (handleSubmit_rejects_incomplete_draft
    (sampleClientEnv (sampleTransport [.ok createdResponse]))
    { sampleDraft JSVal.null JSVal.null with location := "" } (Or.inr (Or.inl rfl))).1


/-! ## Claims on the routes -/

/-- C24. For every stored collection the listing returns the first 100 (or
all, if fewer) of the active reports in the order newest first: every returned
report is stored and active, the result is sorted by creation time descending,
it has `min 100 (number of active reports)` elements, and the active reports
left out are no newer than any returned one. -/
theorem listing_is_newest_active_page (store : List Report) :
    (∀ r ∈ listReports store, r ∈ store ∧ r.isActive = true) ∧
    (listReports store).Pairwise newerFirst ∧
    (listReports store).length = min 100 (store.filter (fun r => r.isActive)).length ∧
    (listReports store).length ≤ 100 ∧
    ∃ rest, (listReports store ++ rest).Perm (store.filter (fun r => r.isActive)) ∧
      ∀ x ∈ listReports store, ∀ y ∈ rest, newerFirst x y := by
  haveI : IsTotal Report newerFirst := ⟨fun a b => Nat.le_total _ _⟩
  haveI : IsTrans Report newerFirst := ⟨fun a b c hab hbc => Nat.le_trans hbc hab⟩
  have hsorted : ((store.filter (fun r => r.isActive)).insertionSort newerFirst).Pairwise
      newerFirst := List.sorted_insertionSort newerFirst _
  have hperm := List.perm_insertionSort newerFirst (store.filter (fun r => r.isActive))
  refine ⟨?_, ?_, ?_, ?_, ?_⟩
  · intro r hr
    have h1 := hperm.subset (List.mem_of_mem_take hr)
    have h2 := List.mem_filter.1 h1
    exact ⟨h2.1, by simpa using h2.2⟩
  · exact hsorted.sublist (List.take_sublist _ _)
  · simp [listReports, List.length_take, hperm.length_eq]
  · simp [listReports, List.length_take]
  · refine ⟨((store.filter (fun r => r.isActive)).insertionSort newerFirst).drop 100, ?_, ?_⟩
    · unfold listReports
      rw [List.take_append_drop]
      exact hperm
    · rw [← List.take_append_drop 100
        ((store.filter (fun r => r.isActive)).insertionSort newerFirst)] at hsorted
      exact (List.pairwise_append.1 hsorted).2.2

/-- C25. The filter accepts a file if and only if its MIME type begins with
`image/`, and rejects any other with 'Only image files are allowed'; whatever
error the upload reports (a wrong type, a file over 10 MB, a second file), the
route answers with status 400 and creates no report. -/
theorem upload_rejection_answers_400 (env : ServerEnv) (userId : String)
    (files : List UploadedFile) (body : JSObj) (file : UploadedFile) :
    (fileFilter file = none ↔ jsStartsWith file.mimetype "image/" = true) ∧
    (jsStartsWith file.mimetype "image/" = false →
      fileFilter file = some "Only image files are allowed") ∧
    (∀ err, multerSingle files = some err →
      (postReport env userId files body).created = none ∧
      ∃ message, (postReport env userId files body).response = Response.json 400 message) ∧
    (jsStartsWith file.mimetype "image/" = false →
      (postReport env userId [{ file with fieldname := "photo" }] body).response
        = Response.json 400 "Only image files are allowed") ∧
    (jsStartsWith file.mimetype "image/" = true → fileSizeLimit < file.size →
      (postReport env userId [{ file with fieldname := "photo" }] body).response
        = Response.json 400 "File size too large. Maximum size is 10MB.") ∧
    (∀ second, ∃ message,
      (postReport env userId [{ file with fieldname := "photo" }, second] body).response
        = Response.json 400 message ∧
      (postReport env userId [{ file with fieldname := "photo" }, second] body).created
        = none) := by
  have hreject : ∀ (fs : List UploadedFile) err, multerSingle fs = some err →
      (postReport env userId fs body).created = none ∧
      ∃ message, (postReport env userId fs body).response = Response.json 400 message := by
    intro fs err herr
    unfold postReport
    rw [herr]
    cases err with
    | multer code message =>
      by_cases hc : code = "LIMIT_FILE_SIZE"
      · simp [uploadCallback, hc]
      · simp [uploadCallback, hc]
    | other message => simp [uploadCallback]
  refine ⟨?_, ?_, hreject files, ?_, ?_, ?_⟩
  · unfold fileFilter
    cases jsStartsWith file.mimetype "image/" <;> simp
  · intro h
    simp [fileFilter, h]
  · intro h
    simp [postReport, multerSingle, fileFilter, h, uploadCallback]
  · intro h hsize
    simp [postReport, multerSingle, fileFilter, h, hsize, uploadCallback]
  · intro second
    have hsome : ∃ err, multerSingle [{ file with fieldname := "photo" }, second] = some err := by
      unfold multerSingle
      simp only [bne_self_eq_false, Bool.false_eq_true, if_false]
      cases hf : fileFilter { file with fieldname := "photo" } with
      | some message => exact ⟨_, rfl⟩
      | none =>
        dsimp only
        split
        · exact ⟨_, rfl⟩
        · exact ⟨_, rfl⟩
    obtain ⟨err, herr⟩ := hsome
    obtain ⟨h1, message, h2⟩ := hreject _ err herr
    exact ⟨message, h2, h1⟩

/-- C26 (failing input). The handler hands `req.body` to `Report.create` as it
is, apart from `reportedBy` and `title`: a body that supplies likes, comments,
votes, views and viewedBy creates a report that has them. -/
theorem created_report_keeps_supplied_engagement :
    (createHandler sampleEnv sampleUser sampleStuffedBody).response
      = Response.json 201 "success" ∧
    (createHandler sampleEnv sampleUser sampleStuffedBody).created.map Report.likes
      = some [{ user := some { hex := sampleUser } }] ∧
    (createHandler sampleEnv sampleUser sampleStuffedBody).created.map Report.comments
      = some [{ user := some { hex := sampleUser }, text := "Great report" }] ∧
    (createHandler sampleEnv sampleUser sampleStuffedBody).created.map Report.votes
      = some { up := [{ user := some { hex := sampleUser } }], down := [] } ∧
    (createHandler sampleEnv sampleUser sampleStuffedBody).created.map Report.views
      = some (JSVal.num (JSNum.fin 5000 0)) ∧
    (createHandler sampleEnv sampleUser sampleStuffedBody).created.map Report.viewedBy
      = some [{ user := some { hex := sampleUser } }] := by
  refine ⟨rfl, by decide, by decide, by decide, rfl, by decide⟩


theorem createBody_reportedBy (env : ServerEnv) (userId : String) (body body3 : JSObj)
    (h : createBody env userId body = .ok body3) :
    body3.get "reportedBy" = JSVal.str userId := by
  unfold createBody at h
  cases hl : parseLocation env body with
  | error resp => simp [hl] at h
  | ok body1 =>
    simp only [hl] at h
    split at h
    · cases ht : fallbackTitle
          (JSObj.set (parseCoordinates env body1) "reportedBy" (JSVal.str userId)) with
      | error e => simp [ht] at h
      | ok b =>
        simp only [ht, Except.ok.injEq] at h
        rw [← h]
        have := fallbackTitle_lookup _ b "reportedBy" (by decide) ht
        rw [JSObj.get_eq_of_lookup_eq _ _ _ this, JSObj.get_set]
    · simp at h

theorem preSave_reportedBy (r : Report) : (preSave r).reportedBy = r.reportedBy := by
  rw [preSave_eq]

/-- The created document stores the `reportedBy` of the body it is given. -/
theorem create_reportedBy (env : ServerEnv) (body : JSObj) (r : Report)
    (h : Report.create env body = .ok r) : r.reportedBy = body.get "reportedBy" := by
  unfold Report.create at h
  obtain ⟨_, -, h⟩ := bind_eq_ok _ _ _ h
  obtain ⟨_, -, h⟩ := bind_eq_ok _ _ _ h
  obtain ⟨_, -, h⟩ := bind_eq_ok _ _ _ h
  obtain ⟨_, -, h⟩ := bind_eq_ok _ _ _ h
  obtain ⟨_, -, h⟩ := bind_eq_ok _ _ _ h
  obtain ⟨_, -, h⟩ := bind_eq_ok _ _ _ h
  obtain ⟨_, -, h⟩ := bind_eq_ok _ _ _ h
  obtain ⟨_, -, h⟩ := bind_eq_ok _ _ _ h
  obtain ⟨_, -, h⟩ := bind_eq_ok _ _ _ h
  obtain ⟨_, -, h⟩ := bind_eq_ok _ _ _ h
  obtain ⟨_, -, h⟩ := bind_eq_ok _ _ _ h
  obtain ⟨_, -, h⟩ := bind_eq_ok _ _ _ h
  split at h
  · simp only [save, Except.ok.injEq] at h
    rw [← h, preSave_reportedBy]
  · simp at h

theorem created_reportedBy (env : ServerEnv) (userId : String) (body : JSObj) (r : Report)
    (h : (createHandler env userId body).created = some r) :
    r.reportedBy = JSVal.str userId := by
  obtain ⟨body3, h3, hc⟩ := createHandler_created env userId body r h
  rw [create_reportedBy env body3 r hc, createBody_reportedBy env userId body body3 h3]

/-- C27. For every create request the `reportedBy` handed to `Report.create`,
and stored in the created report, is the id of the authenticated user,
whatever the body supplied: two requests of the same user that differ only in
`body.reportedBy` create reports with the same `reportedBy`. -/
theorem reportedBy_is_authenticated_user (env : ServerEnv) (userId : String) (body : JSObj) :
    (∀ body3, createBody env userId body = .ok body3 →
      body3.get "reportedBy" = JSVal.str userId) ∧
    (∀ r, (createHandler env userId body).created = some r →
      r.reportedBy = JSVal.str userId) ∧
    (∀ v1 v2 r1 r2,
      (createHandler env userId (body.set "reportedBy" v1)).created = some r1 →
      (createHandler env userId (body.set "reportedBy" v2)).created = some r2 →
      r1.reportedBy = r2.reportedBy) := by
  refine ⟨fun body3 h => createBody_reportedBy env userId body body3 h,
    fun r h => created_reportedBy env userId body r h, ?_⟩
  intro v1 v2 r1 r2 h1 h2
  rw [created_reportedBy env userId _ r1 h1, created_reportedBy env userId _ r2 h2]

/-- Witness for C27: the body names another user as `reportedBy`. -/
theorem reportedBy_is_authenticated_user_witness :
    (createHandler sampleEnv sampleUser
        ((sampleJsonBody JSVal.undefined).set "reportedBy" (JSVal.str otherUserId))).created.isSome
      = true ∧
    ∀ r, (createHandler sampleEnv sampleUser
        ((sampleJsonBody JSVal.undefined).set "reportedBy" (JSVal.str otherUserId))).created
        = some r → r.reportedBy = JSVal.str sampleUser :=
  ⟨by decide,
   (reportedBy_is_authenticated_user sampleEnv sampleUser
      ((sampleJsonBody JSVal.undefined).set "reportedBy" (JSVal.str otherUserId))).2.1⟩

/-! ## The frame of the engagement methods -/

theorem sameForOthers_refl (u : ObjectId) (r : Report) : Report.sameForOthers u r r :=
  ⟨rfl, rfl, rfl, rfl, rfl, rfl⟩

theorem sameForOthers_preSave (u : ObjectId) (r r1 : Report)
    (h : Report.sameForOthers u r r1) : Report.sameForOthers u r (preSave r1) := by
  unfold Report.sameForOthers at h ⊢
  rw [preSave_eq r1]
  exact h

theorem othersOf_append_self (u : ObjectId) (l : List UserEntry) :
    othersOf u (l ++ [{ user := some u }]) = othersOf u l := by
  simp [othersOf, List.filter_append]

theorem othersOf_idem (u : ObjectId) (l : List UserEntry) :
    othersOf u (othersOf u l) = othersOf u l :=
  filter_other_idem l u

theorem count_othersOf (u v : ObjectId) (l : List UserEntry) (hv : v ≠ u) :
    (othersOf u l).count { user := some v } = l.count { user := some v } := by
  unfold othersOf
  apply List.count_filter
  simpa using hv

theorem addLike_frame (r : Report) (u : ObjectId) :
    Report.sameForOthers u r (stored r (r.addLike u)) := by
  cases h : r.addLike u with
  | error e => exact sameForOthers_refl u r
  | ok r1 =>
    simp only [stored]
    unfold Report.addLike at h
    cases hs : someM (sameUser u) r.likes with
    | error e => simp [hs] at h
    | ok found =>
      simp only [hs, save, Except.ok.injEq] at h
      rw [← h]
      apply sameForOthers_preSave
      cases found
      · exact ⟨othersOf_append_self u r.likes, rfl, rfl, rfl, rfl, rfl⟩
      · exact sameForOthers_refl u r

theorem removeLike_frame (r : Report) (u : ObjectId) :
    Report.sameForOthers u r (stored r (r.removeLike u)) := by
  cases h : r.removeLike u with
  | error e => exact sameForOthers_refl u r
  | ok r1 =>
    simp only [stored]
    have hall : allHaveUser r.likes := by
      unfold Report.removeLike at h
      cases hf : filterM (otherUser u) r.likes with
      | error e => simp [hf] at h
      | ok kept => exact filterM_otherUser_ok u _ kept hf
    rw [removeLike_of_allHaveUser r u hall] at h
    simp only [Except.ok.injEq] at h
    rw [← h]
    apply sameForOthers_preSave
    exact ⟨othersOf_idem u r.likes, rfl, rfl, rfl, rfl, rfl⟩

theorem vote_frame (r : Report) (u : ObjectId) (voteType : JSVal) :
    Report.sameForOthers u r (stored r (r.vote u voteType)) := by
  cases h : r.vote u voteType with
  | error e => exact sameForOthers_refl u r
  | ok r1 =>
    simp only [stored]
    obtain ⟨hup, hdown⟩ := vote_ok_allHaveUser r r1 u _ h
    by_cases h1 : voteType = JSVal.str "up"
    · subst h1
      rw [vote_up_eq r u hup hdown] at h
      simp only [Except.ok.injEq] at h
      rw [← h]
      apply sameForOthers_preSave
      exact ⟨rfl, filter_other_append_idem r.votes.up u, othersOf_idem u r.votes.down,
        rfl, rfl, rfl⟩
    · by_cases h2 : voteType = JSVal.str "down"
      · subst h2
        rw [vote_down_eq r u hup hdown] at h
        simp only [Except.ok.injEq] at h
        rw [← h]
        apply sameForOthers_preSave
        exact ⟨rfl, othersOf_idem u r.votes.up, filter_other_append_idem r.votes.down u,
          rfl, rfl, rfl⟩
      · rw [vote_other_eq r u _ hup hdown h1 h2] at h
        simp only [Except.ok.injEq] at h
        rw [← h]
        apply sameForOthers_preSave
        exact ⟨rfl, othersOf_idem u r.votes.up, othersOf_idem u r.votes.down, rfl, rfl, rfl⟩

/-- C28. For every report, every acting user `u` and each of `addLike(u)`,
`removeLike(u)` and `vote(u, d)`: the entries of all other users in `likes`,
`votes.up` and `votes.down` are the same entries in the same order after the
call, so every other user has as many entries in each as before, and
`comments`, `views` and `status` are unchanged. -/
theorem engagement_leaves_others_unchanged (r : Report) (u : ObjectId) (voteType : JSVal) :
    Report.sameForOthers u r (stored r (r.addLike u)) ∧
    Report.sameForOthers u r (stored r (r.removeLike u)) ∧
    Report.sameForOthers u r (stored r (r.vote u voteType)) ∧
    (∀ (r1 : Report) (v : ObjectId), Report.sameForOthers u r r1 → v ≠ u →
      r1.likes.count { user := some v } = r.likes.count { user := some v } ∧
      r1.upCount v = r.upCount v ∧ r1.downCount v = r.downCount v) := by
  refine ⟨addLike_frame r u, removeLike_frame r u, vote_frame r u voteType, ?_⟩
  intro r1 v hframe hv
  obtain ⟨hl, hu, hd, -, -, -⟩ := hframe
  unfold Report.upCount Report.downCount
  rw [← count_othersOf u v r1.likes hv, ← count_othersOf u v r.likes hv, hl,
    ← count_othersOf u v r1.votes.up hv, ← count_othersOf u v r.votes.up hv, hu,
    ← count_othersOf u v r1.votes.down hv, ← count_othersOf u v r.votes.down hv, hd]
  exact ⟨rfl, rfl, rfl⟩


theorem length_othersOf (u : ObjectId) (l : List UserEntry) :
    (othersOf u l).length + l.count { user := some u } = l.length := by
  unfold othersOf
  induction l with
  | nil => rfl
  | cons e rest ih =>
    obtain ⟨user⟩ := e
    by_cases h : user = some u
    · subst h
      rw [List.filter_cons_of_neg (by simp), List.count_cons_self, List.length_cons]
      omega
    · have hne : ({ user := user } : UserEntry) ≠ { user := some u } := by
        intro heq
        exact h (UserEntry.mk.inj heq)
      rw [List.filter_cons_of_pos (by simpa using h), List.count_cons_of_ne hne.symm,
        List.length_cons, List.length_cons]
      omega

/-- A `vote` whose `voteType` is neither `'up'` nor `'down'`, on a report whose
vote entries all have their user: it is saved, the user is gone from both
sets, nothing is inserted, and a user who had one entry in `votes.up` and none
in `votes.down` lowers `voteScore` by 1. -/
theorem vote_other_removes_user (r : Report) (u : ObjectId) (voteType : JSVal)
    (h1 : voteType ≠ JSVal.str "up") (h2 : voteType ≠ JSVal.str "down")
    (hup : allHaveUser r.votes.up) (hdown : allHaveUser r.votes.down) :
    ∃ r1, r.vote u voteType = .ok r1 ∧
      r1.votes.up = othersOf u r.votes.up ∧ r1.votes.down = othersOf u r.votes.down ∧
      r1.upCount u = 0 ∧ r1.downCount u = 0 ∧
      (r.upCount u = 1 → r.downCount u = 0 → r1.voteScore = r.voteScore - 1) := by
  refine ⟨_, vote_other_eq r u voteType hup hdown h1 h2, ?_, ?_, ?_, ?_, ?_⟩
  · rw [preSave_votes]
    rfl
  · rw [preSave_votes]
    rfl
  · simp only [Report.upCount, preSave_votes]
    exact count_filter_other _ u
  · simp only [Report.downCount, preSave_votes]
    exact count_filter_other _ u
  · intro hu hd
    have lu := length_othersOf u r.votes.up
    have ld := length_othersOf u r.votes.down
    unfold Report.upCount at hu
    unfold Report.downCount at hd
    simp only [Report.voteScore, preSave_votes]
    unfold othersOf at lu ld
    omega

/-- C29 (failing input). On a report whose `votes.up` holds an entry without a
user reference, which the schema allows (line 76) and the create route stores,
`vote` with a `voteType` that is neither `'up'` nor `'down'` throws a
`TypeError` in its filter callback, although the claim says it raises no
error. -/
theorem unvote_throws_on_entry_without_user :
    sampleOrphanReport.vote { hex := sampleUser } JSVal.undefined
      = .error JSError.typeError ∧
    sampleOrphanReport.vote { hex := sampleUser } (JSVal.str "sideways")
      = .error JSError.typeError ∧
    (createHandler sampleEnv sampleUser sampleOrphanBody).created.map
        (fun r => r.votes.up) = some sampleOrphanReport.votes.up := by
  refine ⟨rfl, rfl, by decide⟩

end RaastaSathi
